import Mathlib

/-!
# FlappyBird_Phaser: the game loop of `app.js`

A shallow embedding of the module-level game variables of `app.js` and of the
functions that mutate them (`update`, `startGame`, `flapBird`, `spawnPipes`,
`gameOverHandler`, `addScore`, `restartGame`, `createTextElements`,
`Math.clamp`).  JavaScript numbers are modelled as rationals.  What the host
engine supplies (the frame time, the scene clock, the key edge, the random draw,
the height of the pipe texture) is an explicit input.  The three prompt objects
are created by `createTextElements`, which `create` may leave to a font-loader
callback; until then they are undefined, and a function that dereferences one of
them without a guard throws a `TypeError` and leaves the variables as they are
at that statement.
-/

namespace FlappyBird

/-! ## Data model -/

/-- The `bird` sprite together with the fields of `bird.body` the script touches. -/
structure Bird where
  x : ℚ
  y : ℚ
  angle : ℚ
  velocityX : ℚ
  velocityY : ℚ
  allowGravity : Bool
  deriving DecidableEq

/-- One child of the `pipes` group, with the fields the script reads or writes. -/
structure Pipe where
  x : ℚ
  y : ℚ
  velocityX : ℚ
  allowGravity : Bool
  scored : Bool
  flipY : Bool
  depth : ℚ
  textureKey : String
  height : ℚ
  deriving DecidableEq

/-- The module-level variables of `app.js`.  `scoreText` is the `textContent` of
the score element of the page (`document.getElementById("score-display")`, taken
to exist).  `startText`, `gameOverText` and `restartText` are `none` while the
prompt object is undefined, otherwise its `visible` flag. -/
structure GameState where
  bird : Bird
  tilePositionX : ℚ
  pipes : List Pipe
  gameStarted : Bool
  gameOver : Bool
  score : ℕ
  scoreText : String
  lastPipeTime : ℚ
  startText : Option Bool
  gameOverText : Option Bool
  restartText : Option Bool
  deriving DecidableEq

/-- The result of a call of one of the script's functions: `.ok s` when the call
ran to its end, `.error s` when a `TypeError` (a property of an undefined prompt
being set) cut it short; `s` holds the variables at that point. -/
abbrev Outcome := Except GameState GameState

/-- The variables a call leaves behind, whether it returned or threw. -/
def vars : Outcome → GameState
  | .ok s => s
  | .error s => s

/-- A value returned by the engine's `Phaser.Math.Between(lo, hi)`: an integer
between the two bounds, both included. -/
structure Between (lo hi : ℤ) where
  val : ℤ
  ge : lo ≤ val
  le : val ≤ hi

/-- What the script takes from the engine and its assets without defining it.
`liveChildren` tells whether `pipes.getChildren()` hands out the group's own
array, so that `pipe.destroy()` shortens the array under the running `forEach`
(the element that follows a destroyed one is then not visited in that pass), or
a copy of it.  `pipeHeight` is the height of the `"pipe"` texture. -/
structure Engine where
  liveChildren : Bool
  pipeHeight : ℚ

/-- The inputs of one call of `update(time)`: the frame time, the scene clock
`scene.time.now`, whether `JustDown(spaceKey)` holds, and the value
`Phaser.Math.Between(100, 500)` returns if `spawnPipes` runs. -/
structure Frame where
  time : ℚ
  now : ℚ
  spaceJustDown : Bool
  gapY : Between 100 500

/-! ## Constants -/

/-- Source: `let pipeGap = 120`. -/
def pipeGap : ℚ := 120

/-- Source: `let pipeSpeed = -200`. -/
def pipeSpeed : ℚ := -200

/-- Source: `let pipeSpawnTime = 1500`. -/
def pipeSpawnTime : ℚ := 1500

/-- Source: `Math.clamp = (value, min, max) => Math.max(min, Math.min(max, value))`. -/
def Math.clamp (value lo hi : ℚ) : ℚ := max lo (min hi value)

/-! ## Setup -/

/-- Source: `createTextElements`: the three prompts are created, the start
prompt visible, the two others hidden. -/
def createTextElements (s : GameState) : GameState :=
  { s with startText := some true, gameOverText := some false, restartText := some false }

/-- Source: `create`, with the initial values of the module variables: the bird
at (80, 300) without gravity, an empty group.  `scoreDisplay` is the text the
page's score element starts with.  With `webFont` set (`window.WebFont` exists)
the prompts are left to the callback of `WebFont.load` and are still undefined
when `create` returns; otherwise `createTextElements` runs at once. -/
def create (scoreDisplay : String) (webFont : Bool) : GameState :=
  let s : GameState :=
    { bird := { x := 80, y := 300, angle := 0, velocityX := 0, velocityY := 0,
                allowGravity := false }
      tilePositionX := 0
      pipes := []
      gameStarted := false
      gameOver := false
      score := 0
      scoreText := scoreDisplay
      lastPipeTime := 0
      startText := none
      gameOverText := none
      restartText := none }
  if webFont then s else createTextElements s

/-! ## Operations -/

/-- Source: `addScore`. -/
def addScore (s : GameState) : GameState :=
  let score := s.score + 1
  { s with score := score, scoreText := "Score: " ++ toString score }

/-- Source: `restartGame`.  The flags, the score and its display are reset
first (lines 285-290); `gameOverText.visible = false` (line 292) and
`restartText.visible = false` (line 293) throw when the prompt is undefined,
before the pipes are cleared and the bird is reset (lines 300-307). -/
def restartGame (s : GameState) : Outcome :=
  let s1 : GameState :=
    { s with gameOver := false, gameStarted := false, score := 0,
             scoreText := "Score: " ++ toString (0 : ℕ) }
  match s1.gameOverText with
  | none => .error s1
  | some _ =>
    let s2 : GameState := { s1 with gameOverText := some false }
    match s2.restartText with
    | none => .error s2
    | some _ =>
      .ok { s2 with
            restartText := some false
            startText := s2.startText.map (fun _ => true)
            pipes := []
            bird := { s2.bird with x := 80, y := 300, angle := 0, velocityY := 0,
                                   allowGravity := false } }

mutual

/-- Source: `startGame(scene)`; `now` is `scene.time.now`.  An exception of the
nested `flapBird` call ends `startGame` too. -/
def startGame (now : ℚ) (s : GameState) : Outcome :=
  let s1 : GameState :=
    { s with gameStarted := true, bird := { s.bird with allowGravity := true } }
  match flapBird now s1 with
  | .error s2 => .error s2
  | .ok s2 =>
    let s3 : GameState := { s2 with lastPipeTime := now }
    .ok { s3 with startText := s3.startText.map (fun _ => false) }
termination_by 1

/-- Source: `flapBird`, called with the scene as `this`. -/
def flapBird (now : ℚ) (s : GameState) : Outcome :=
  if s.gameOver then restartGame s
  else if _h : s.gameStarted = false then startGame now s
  else .ok { s with bird := { s.bird with velocityY := -350 } }
termination_by (if s.gameStarted then 0 else 2)
decreasing_by
  all_goals simp_all

end

/-- The two segments `spawnPipes` adds to the group, top first. -/
def pipePair (e : Engine) (gapY : ℤ) : List Pipe :=
  let topPipe : Pipe :=
    { x := 960, y := gapY - pipeGap / 2, velocityX := 0, allowGravity := true,
      scored := false, flipY := false, depth := 0, textureKey := "pipe",
      height := e.pipeHeight }
  let topPipe := { topPipe with allowGravity := false }
  let topPipe := { topPipe with velocityX := pipeSpeed }
  let topPipe := { topPipe with scored := false }
  let topPipe := { topPipe with depth := 5 }
  let topPipe := { topPipe with flipY := true }
  let topPipe := { topPipe with y := gapY - pipeGap / 2 - topPipe.height / 2 }
  let bottomPipe : Pipe :=
    { x := 960, y := gapY + pipeGap / 2, velocityX := 0, allowGravity := true,
      scored := false, flipY := false, depth := 0, textureKey := "pipe",
      height := e.pipeHeight }
  let bottomPipe := { bottomPipe with allowGravity := false }
  let bottomPipe := { bottomPipe with velocityX := pipeSpeed }
  let bottomPipe := { bottomPipe with scored := true }
  let bottomPipe := { bottomPipe with y := gapY + pipeGap / 2 + bottomPipe.height / 2 }
  let bottomPipe := { bottomPipe with depth := 5 }
  [topPipe, bottomPipe]

/-- Source: `spawnPipes`; `gapY` is the value of `Phaser.Math.Between(100, 500)`. -/
def spawnPipes (e : Engine) (gapY : Between 100 500) (s : GameState) : GameState :=
  { s with pipes := s.pipes ++ pipePair e gapY.val }

/-- Source: `gameOverHandler`.  The flag is set and the pipes are stopped first
(lines 259-264); `gameOverText.visible = true` (line 267) and
`restartText.visible = true` (line 268) throw when the prompt is undefined,
before the bird is stopped (lines 271-273). -/
def gameOverHandler (s : GameState) : Outcome :=
  if s.gameOver then .ok s
  else
    let s1 : GameState :=
      { s with gameOver := true
               pipes := s.pipes.map (fun pipe => { pipe with velocityX := 0 }) }
    match s1.gameOverText with
    | none => .error s1
    | some _ =>
      let s2 : GameState := { s1 with gameOverText := some true }
      match s2.restartText with
      | none => .error s2
      | some _ =>
        .ok { s2 with
              restartText := some true
              bird := { s2.bird with allowGravity := false, velocityY := 0,
                                     velocityX := 0 } }

/-- Source: the body of `if (Phaser.Input.Keyboard.JustDown(spaceKey))` in `update`. -/
def spaceKeyBranch (now : ℚ) (s : GameState) : Outcome :=
  if s.gameStarted = false then startGame now s
  else if s.gameOver then restartGame s
  else flapBird now s

/-- Source: the test of the scoring `if` inside the `forEach` of `update`. -/
def passed (birdX : ℚ) (pipe : Pipe) : Bool :=
  !pipe.scored && decide (pipe.x < birdX) && (pipe.textureKey == "pipe") &&
    decide (pipe.y < 300)

/-- Source: `pipes.getChildren().forEach(...)` in `update`, run over the
children still to visit.  Returns the children that stay in the group and the
variables after the calls of `addScore`.  `skip` holds when a `destroy()` has
just shortened the array under the iteration: the next child is then left
untouched and stays in the group.  A destroyed child still goes through the
scoring test of its own callback. -/
def forEachPipe (live : Bool) : Bool → List Pipe → GameState → List Pipe × GameState
  | _, [], s => ([], s)
  | true, pipe :: rest, s =>
      let r := forEachPipe live false rest s
      (pipe :: r.1, r.2)
  | false, pipe :: rest, s =>
      let hit := passed s.bird.x pipe
      let s1 := if hit then addScore s else s
      let pipe1 := if hit then { pipe with scored := true } else pipe
      if pipe.x < -50 then forEachPipe live live rest s1
      else
        let r := forEachPipe live false rest s1
        (pipe1 :: r.1, r.2)

/-- Source: `update`, the key handling (lines 163-171). -/
def updateKey (f : Frame) (s : GameState) : Outcome :=
  if f.spaceJustDown then spaceKeyBranch f.now s else .ok s

/-- Source: `update`, the rotation of the bird (lines 174-176). -/
def updateAngle (s : GameState) : GameState :=
  if s.gameStarted && !s.gameOver then
    { s with bird := { s.bird with angle := Math.clamp (s.bird.velocityY / 10) (-30) 90 } }
  else s

/-- Source: the test of the spawn block of `update`,
`gameStarted && !gameOver && time > lastPipeTime + pipeSpawnTime`. -/
def spawnDue (time : ℚ) (s : GameState) : Bool :=
  s.gameStarted && !s.gameOver && decide (time > s.lastPipeTime + pipeSpawnTime)

/-- Source: `update`, the spawn block (lines 179-182). -/
def updateSpawn (e : Engine) (f : Frame) (s : GameState) : GameState :=
  if spawnDue f.time s then
    { spawnPipes e f.gapY s with lastPipeTime := f.time }
  else s

/-- Source: `update`, the loop over the pipes (lines 185-201). -/
def updatePipes (e : Engine) (s : GameState) : GameState :=
  let r := forEachPipe e.liveChildren false s.pipes s
  { r.2 with pipes := r.1 }

/-- Source: `update`, the scrolling of the background (line 160). -/
def updateScroll (s : GameState) : GameState :=
  { s with tilePositionX := s.tilePositionX + 1 / 2 }

/-- Source: `update(time)`.  An exception of the key handling ends the call
before the rotation, the spawn block and the loop over the pipes. -/
def update (e : Engine) (f : Frame) (s : GameState) : Outcome :=
  match updateKey f (updateScroll s) with
  | .error s1 => .error s1
  | .ok s1 => .ok (updatePipes e (updateSpawn e f (updateAngle s1)))

/-! ## Flap inputs -/

/-- The two sources of a flap: a pointer press, bound to `flapBird`, and a press
of the space key, seen by `update`. -/
inductive FlapInput where
  | pointer
  | spaceKey
  deriving DecidableEq

/-- The handling of one flap input; `now` is `scene.time.now`. -/
def flap (i : FlapInput × ℚ) (s : GameState) : Outcome :=
  match i.1 with
  | .pointer => flapBird i.2 s
  | .spaceKey => spaceKeyBranch i.2 s

/-- The variables after a sequence of flap inputs, handled in order. -/
def runFlaps (s : GameState) (is : List (FlapInput × ℚ)) : GameState :=
  is.foldl (fun st i => vars (flap i st)) s

/-- A state with `gameOver` set before the game was started: the created scene,
its prompts in place, after a collision event. -/
def overBeforeStart : GameState :=
  { create "" false with gameOver := true, gameOverText := some true,
                         restartText := some true }

/-! ## Runs of the game -/

/-- What the engine's physics step does to the objects between two calls of the
script, left arbitrary: new position and velocity of the bird, new position and
horizontal velocity of each child of the group (by index).  It never touches a
`scored` flag, a texture or the module variables. -/
structure Motion where
  birdX : ℚ
  birdY : ℚ
  birdVelocityX : ℚ
  birdVelocityY : ℚ
  pipeX : ℕ → ℚ
  pipeY : ℕ → ℚ
  pipeVelocityX : ℕ → ℚ

/-- The pipes after a physics step, the first one having index `i`. -/
def movePipes (m : Motion) : ℕ → List Pipe → List Pipe
  | _, [] => []
  | i, pipe :: rest =>
      { pipe with x := m.pipeX i, y := m.pipeY i, velocityX := m.pipeVelocityX i } ::
        movePipes m (i + 1) rest

/-- The variables after a physics step. -/
def physicsStep (m : Motion) (s : GameState) : GameState :=
  { s with
    bird := { s.bird with x := m.birdX, y := m.birdY, velocityX := m.birdVelocityX,
                          velocityY := m.birdVelocityY }
    pipes := movePipes m 0 s.pipes }

/-- What can happen to the scene: a frame (`update`), a pointer press
(`flapBird`), a collision reported by a collider (`gameOverHandler`), a physics
step, the callback of the font loader (`createTextElements`). -/
inductive Event where
  | frame (f : Frame)
  | pointerDown (now : ℚ)
  | collision
  | physics (m : Motion)
  | fontCallback

/-- The call an event makes, with its outcome. -/
def handle (e : Engine) : Event → GameState → Outcome
  | .frame f, s => update e f s
  | .pointerDown now, s => flapBird now s
  | .collision, s => gameOverHandler s
  | .physics m, s => .ok (physicsStep m s)
  | .fontCallback, s => .ok (createTextElements s)

/-- The variables after one event, whether its call returned or threw. -/
def step (e : Engine) (ev : Event) (s : GameState) : GameState := vars (handle e ev s)

/-- Whether the event makes the script call `restartGame`: a flap input, from
either source, that arrives while `gameOver` is set. -/
def restarts : Event → GameState → Bool
  | .frame f, s => f.spaceJustDown && s.gameOver
  | .pointerDown _, s => s.gameOver
  | _, _ => false

/-- Whether the event carries a restart out: it calls `restartGame` and the two
prompts that function dereferences exist, so that the call runs to its end and
clears the collection. -/
def restartsFully (ev : Event) (s : GameState) : Bool :=
  restarts ev s && s.gameOverText.isSome && s.restartText.isSome

/-- Whether the event makes the script call `spawnPipes`: a frame whose key
handling returns and whose spawn test holds when `update` reaches it. -/
def spawns : Event → GameState → Bool
  | .frame f, s =>
      match updateKey f (updateScroll s) with
      | .ok s1 => spawnDue f.time (updateAngle s1)
      | .error _ => false
  | _, _ => false

/-- The number of segments of a collection whose `scored` flag is clear. -/
def unscored (pipes : List Pipe) : ℕ := pipes.countP (fun pipe => !pipe.scored)

/-- A run of the game that also counts the pairs spawned since the last
restart: the counter is reset by an event that carries a restart out and
incremented by an event that spawns.  A call of `restartGame` that throws has
cleared no pipe and does not reset the counter. -/
def runGame (e : Engine) : List Event → GameState × ℕ → GameState × ℕ
  | [], c => c
  | ev :: evs, c =>
      let n1 := if restartsFully ev c.1 then 0 else c.2
      let n2 := if spawns ev c.1 then n1 + 1 else n1
      runGame e evs (step e ev c.1, n2)

/-! ## Concrete scenes -/

/-- An engine whose pipe texture is 400 high. -/
def engine400 (live : Bool) : Engine := { liveChildren := live, pipeHeight := 400 }

/-- A frame at time `t` without key press; the random draw, if used, is 300. -/
def quietFrame (t : ℚ) : Frame :=
  { time := t, now := t, spaceJustDown := false, gapY := ⟨300, by decide, by decide⟩ }

/-- The scene right after a start at clock 0: Playing, no pipe yet, spawn-timer
reference 0. -/
def playingAtZero : GameState :=
  { create "" false with
    gameStarted := true
    bird := { x := 80, y := 300, angle := 0, velocityX := 0, velocityY := -350,
              allowGravity := true }
    lastPipeTime := 0
    startText := some false }

/-- An engine whose pipe texture is 100 high. -/
def engine100 (live : Bool) : Engine := { liveChildren := live, pipeHeight := 100 }

/-- A frame at time `t` in which the space key has just been pressed. -/
def keyFrame (t : ℚ) : Frame :=
  { time := t, now := t, spaceJustDown := true, gapY := ⟨300, by decide, by decide⟩ }

/-- A segment with the fields `spawnPipes` gives a top pipe (400-high texture),
at the given position and with the given `scored` flag. -/
def segmentAt (x y : ℚ) (scored : Bool) : Pipe :=
  { x := x, y := y, velocityX := -200, allowGravity := false, scored := scored,
    flipY := true, depth := 5, textureKey := "pipe", height := 400 }

/-- The top segment `spawnPipes` creates for the draw 500 when the texture is
100 high (its centre is at y = 390), after it has travelled to x = 70. -/
def lowTopAt70 : Pipe :=
  { x := 70, y := 390, velocityX := -200, allowGravity := false, scored := false,
    flipY := true, depth := 5, textureKey := "pipe", height := 100 }

/-- The scene `playingAtZero` with the given pipes. -/
def playingWith (pipes : List Pipe) : GameState := { playingAtZero with pipes := pipes }

/-- A game-over scene with the given score and pipes: the bird at x = 80, the
pipes stopped, the prompts shown. -/
def gameOverWith (score : ℕ) (pipes : List Pipe) : GameState :=
  { create ("Score: " ++ toString score) false with
    gameStarted := true
    gameOver := true
    score := score
    pipes := pipes.map (fun pipe => { pipe with velocityX := 0 })
    lastPipeTime := 0
    startText := some false
    gameOverText := some true
    restartText := some true }

/-- A Playing scene with score 3 in which the pair of the draw 300 (400-high
texture) has come to x = 82, just right of the bird at x = 80. -/
def pairAhead : GameState :=
  { playingAtZero with
    score := 3
    scoreText := "Score: 3"
    lastPipeTime := 1000
    pipes := (pipePair (engine400 true) 300).map (fun pipe => { pipe with x := 82 }) }

/-- A physics step that carries both pipes from x = 82 to x = 78 while the bird
falls to y = 540. -/
def pastTheBird : Motion :=
  { birdX := 80, birdY := 540, birdVelocityX := 0, birdVelocityY := 420,
    pipeX := fun _ => 78, pipeY := fun i => if i = 0 then 40 else 560,
    pipeVelocityX := fun _ => -200 }

/-- A Playing scene whose prompts do not exist yet: `create` has left them to
the font loader, whose callback has not run; the game was started at clock 0,
the frame at 1501 has spawned the pair of the draw 300 (400-high texture), which
is on its way at x = 500 with velocity -200, and the bird is falling at y = 520
with score 0. -/
def playingBeforePrompts : GameState :=
  { create "Score: 0" true with
    gameStarted := true
    tilePositionX := 1 / 2
    lastPipeTime := 1501
    bird := { x := 80, y := 520, angle := -30, velocityX := 0, velocityY := 450,
              allowGravity := true }
    pipes := (pipePair (engine400 true) 300).map (fun pipe => { pipe with x := 500 }) }

/-- The physics step that brings the scene to `playingBeforePrompts`: the pair
at x = 500, the bird at y = 520 falling at 450. -/
def fallingBird : Motion :=
  { birdX := 80, birdY := 520, birdVelocityX := 0, birdVelocityY := 450,
    pipeX := fun _ => 500, pipeY := fun i => if i = 0 then 40 else 560,
    pipeVelocityX := fun _ => -200 }

/-- The scene a collision leaves in `playingBeforePrompts`: the variables at the
statement where `gameOverHandler` throws. -/
def gameOverBeforePrompts : GameState := vars (gameOverHandler playingBeforePrompts)
/-! ## Lemmas on the flap handlers -/

theorem flapBird_playing (now : ℚ) (s : GameState) (h1 : s.gameStarted = true)
    (h2 : s.gameOver = false) :
    flapBird now s = .ok { s with bird := { s.bird with velocityY := -350 } } := by
  rw [flapBird]; simp [h1, h2]

theorem startGame_fresh (now : ℚ) (s : GameState) (h2 : s.gameOver = false) :
    startGame now s =
      .ok { s with gameStarted := true
                   bird := { s.bird with allowGravity := true, velocityY := -350 }
                   lastPipeTime := now
                   startText := s.startText.map (fun _ => false) } := by
  have h := flapBird_playing now
    { s with gameStarted := true, bird := { s.bird with allowGravity := true } } rfl h2
  rw [startGame]
  simp only [h]

theorem flapBird_notStarted (now : ℚ) (s : GameState) (h1 : s.gameStarted = false)
    (h2 : s.gameOver = false) : flapBird now s = startGame now s := by
  rw [flapBird]; simp [h1, h2]

theorem flapBird_gameOver (now : ℚ) (s : GameState) (h2 : s.gameOver = true) :
    flapBird now s = restartGame s := by
  rw [flapBird]; simp [h2]

theorem flap_playing (i : FlapInput × ℚ) (s : GameState) (h1 : s.gameStarted = true)
    (h2 : s.gameOver = false) :
    flap i s = .ok { s with bird := { s.bird with velocityY := -350 } } := by
  obtain ⟨src, now⟩ := i
  cases src <;> simp [flap, spaceKeyBranch, h1, h2, flapBird_playing]

theorem flap_notStarted (i : FlapInput × ℚ) (s : GameState) (h1 : s.gameStarted = false)
    (h2 : s.gameOver = false) : flap i s = startGame i.2 s := by
  obtain ⟨src, now⟩ := i
  cases src <;> simp [flap, spaceKeyBranch, h1, h2, flapBird_notStarted]

theorem runFlaps_playing (is : List (FlapInput × ℚ)) (s : GameState)
    (h1 : s.gameStarted = true) (h2 : s.gameOver = false) :
    (runFlaps s is).gameStarted = true ∧ (runFlaps s is).gameOver = false := by
  induction is generalizing s with
  | nil => exact ⟨h1, h2⟩
  | cons i is ih =>
    have h := flap_playing i s h1 h2
    simp only [runFlaps, List.foldl_cons] at ih ⊢
    rw [h]
    exact ih _ h1 h2

theorem scoreText_zero : "Score: " ++ toString (0 : ℕ) = "Score: 0" := by decide

/-- With both prompts it dereferences in place, `restartGame` runs to its end. -/
theorem restartGame_ok (s : GameState) (a b : Bool) (hg : s.gameOverText = some a)
    (hr : s.restartText = some b) :
    restartGame s =
      .ok { s with
            gameOver := false
            gameStarted := false
            score := 0
            scoreText := "Score: " ++ toString (0 : ℕ)
            gameOverText := some false
            restartText := some false
            startText := s.startText.map (fun _ => true)
            pipes := []
            bird := { s.bird with x := 80, y := 300, angle := 0, velocityY := 0,
                                  allowGravity := false } } := by
  simp only [restartGame, hg, hr]

/-- Whether it returns or throws, `restartGame` leaves the score at 0, both
flags clear, and the collection either empty or as it was. -/
theorem restartGame_vars (s : GameState) :
    (vars (restartGame s)).score = 0 ∧ (vars (restartGame s)).gameStarted = false ∧
    (vars (restartGame s)).gameOver = false ∧
    ((vars (restartGame s)).pipes = [] ∨ (vars (restartGame s)).pipes = s.pipes) ∧
    ((s.gameOverText.isSome && s.restartText.isSome) = true →
      (vars (restartGame s)).pipes = []) := by
  unfold restartGame
  cases hg : s.gameOverText <;> cases hr : s.restartText <;>
    simp [vars]

/-- A start requested while `gameOver` is set: the nested `flapBird` restarts. -/
theorem startGame_gameOver (now : ℚ) (s : GameState) (h2 : s.gameOver = true) :
    startGame now s =
      match restartGame
        { s with gameStarted := true, bird := { s.bird with allowGravity := true } } with
      | .error s2 => .error s2
      | .ok s2 =>
        .ok { s2 with lastPipeTime := now
                      startText := s2.startText.map (fun _ => false) } := by
  have h := flapBird_gameOver now
    { s with gameStarted := true, bird := { s.bird with allowGravity := true } } h2
  rw [startGame]
  simp only [h]

theorem startGame_gameOver_vars (now : ℚ) (s : GameState) (h2 : s.gameOver = true) :
    (vars (startGame now s)).score = 0 ∧ (vars (startGame now s)).gameStarted = false ∧
    (vars (startGame now s)).gameOver = false ∧
    ((vars (startGame now s)).pipes = [] ∨ (vars (startGame now s)).pipes = s.pipes) ∧
    ((s.gameOverText.isSome && s.restartText.isSome) = true →
      (vars (startGame now s)).pipes = []) := by
  rw [startGame_gameOver now s h2]
  unfold restartGame
  cases hg : s.gameOverText <;> cases hr : s.restartText <;>
    simp [vars]

/-! ## Lemmas on the loop over the pipes -/

theorem passed_of_scored (birdX : ℚ) (pipe : Pipe) (h : pipe.scored = true) :
    passed birdX pipe = false := by
  simp [passed, h]

theorem scored_of_passed (birdX : ℚ) (pipe : Pipe) (h : passed birdX pipe = true) :
    pipe.scored = false := by
  cases hs : pipe.scored
  · rfl
  · rw [passed_of_scored birdX pipe hs] at h; exact absurd h (by decide)

theorem forEachPipe_nil (live k : Bool) (s : GameState) :
    forEachPipe live k [] s = ([], s) := by
  cases k <;> rfl

/-- The loop changes no variable but `score` and `scoreText`. -/
theorem forEachPipe_frame (live : Bool) (xs : List Pipe) : ∀ (k : Bool) (s : GameState),
    (forEachPipe live k xs s).2 =
      { s with score := (forEachPipe live k xs s).2.score
               scoreText := (forEachPipe live k xs s).2.scoreText } := by
  induction xs with
  | nil => intro k s; rw [forEachPipe_nil]
  | cons p rest ih =>
    intro k s
    cases k
    · simp only [forEachPipe]
      split_ifs with h1 h2 h2
      · rw [ih live (addScore s)]; rfl
      · rw [ih live s]
      · simp only []; rw [ih false (addScore s)]; rfl
      · simp only []; rw [ih false s]
    · simp only [forEachPipe]
      rw [ih false s]

theorem addScore_score (s : GameState) : (addScore s).score = s.score + 1 := rfl

theorem addScore_bird (s : GameState) : (addScore s).bird = s.bird := rfl

theorem unscored_cons (pipe : Pipe) (rest : List Pipe) :
    unscored (pipe :: rest) = unscored rest + (if pipe.scored then 0 else 1) := by
  cases h : pipe.scored <;> simp [unscored, List.countP_cons, h]

/-- The loop never lowers the score. -/
theorem forEachPipe_score_le (live : Bool) (xs : List Pipe) : ∀ (k : Bool) (s : GameState),
    s.score ≤ (forEachPipe live k xs s).2.score := by
  induction xs with
  | nil => intro k s; rw [forEachPipe_nil]
  | cons p rest ih =>
    intro k s
    cases k
    · simp only [forEachPipe]
      split_ifs with h1 h2 h2
      · exact le_trans (Nat.le_succ _) (ih live (addScore s))
      · exact ih live s
      · exact le_trans (Nat.le_succ _) (ih false (addScore s))
      · exact ih false s
    · simp only [forEachPipe]
      exact ih false s

/-- Every point the loop adds uses up one clear `scored` flag. -/
theorem forEachPipe_account (live : Bool) (xs : List Pipe) : ∀ (k : Bool) (s : GameState),
    (forEachPipe live k xs s).2.score + unscored (forEachPipe live k xs s).1 ≤
      s.score + unscored xs := by
  induction xs with
  | nil => intro k s; rw [forEachPipe_nil]
  | cons p rest ih =>
    intro k s
    cases k
    · simp only [forEachPipe]
      split_ifs with h1 h2 h2
      · have := ih live (addScore s)
        have hp := scored_of_passed _ _ h2
        rw [unscored_cons, hp, addScore_score] at *
        simp only [Bool.false_eq_true, if_false]
        omega
      · have := ih live s
        rw [unscored_cons]
        omega
      · have := ih false (addScore s)
        have hp := scored_of_passed _ _ h2
        dsimp only
        rw [unscored_cons, unscored_cons, hp, addScore_score] at *
        simp only [Bool.false_eq_true, if_false, if_true]
        omega
      · have := ih false s
        dsimp only
        rw [unscored_cons, unscored_cons]
        omega
    · simp only [forEachPipe]
      have := ih false s
      rw [unscored_cons, unscored_cons]
      omega

/-- The loop adds no segment. -/
theorem forEachPipe_length_le (live : Bool) (xs : List Pipe) : ∀ (k : Bool) (s : GameState),
    (forEachPipe live k xs s).1.length ≤ xs.length := by
  induction xs with
  | nil => intro k s; rw [forEachPipe_nil]
  | cons p rest ih =>
    intro k s
    cases k
    · simp only [forEachPipe]
      split_ifs with h1 h2 h2
      · exact le_trans (ih live (addScore s)) (Nat.le_succ _)
      · exact le_trans (ih live s) (Nat.le_succ _)
      · exact Nat.succ_le_succ (ih false (addScore s))
      · exact Nat.succ_le_succ (ih false s)
    · simp only [forEachPipe]
      exact Nat.succ_le_succ (ih false s)

/-- Every segment the loop keeps is a segment it was given, possibly with its
`scored` flag newly set. -/
theorem forEachPipe_mem (live : Bool) (xs : List Pipe) : ∀ (k : Bool) (s : GameState),
    ∀ q ∈ (forEachPipe live k xs s).1,
      ∃ p ∈ xs, q = p ∨ q = { p with scored := true } := by
  induction xs with
  | nil => intro k s q hq; rw [forEachPipe_nil] at hq; cases hq
  | cons p rest ih =>
    intro k s q hq
    have lift : (∃ p0 ∈ rest, q = p0 ∨ q = { p0 with scored := true }) →
        ∃ p0 ∈ p :: rest, q = p0 ∨ q = { p0 with scored := true } := by
      rintro ⟨p0, hp0, h⟩
      exact ⟨p0, List.mem_cons_of_mem _ hp0, h⟩
    cases k
    · simp only [forEachPipe] at hq
      split_ifs at hq with h1 h2 h2
      · exact lift (ih live _ q hq)
      · exact lift (ih live _ q hq)
      · rcases List.mem_cons.1 hq with h | h
        · exact ⟨p, List.mem_cons_self _ _, Or.inr h⟩
        · exact lift (ih false _ q h)
      · rcases List.mem_cons.1 hq with h | h
        · exact ⟨p, List.mem_cons_self _ _, Or.inl h⟩
        · exact lift (ih false _ q h)
    · simp only [forEachPipe] at hq
      rcases List.mem_cons.1 hq with h | h
      · exact ⟨p, List.mem_cons_self _ _, Or.inl h⟩
      · exact lift (ih false _ q h)

/-- A collection without a segment that passes the scoring test leaves the
variables as they are. -/
theorem forEachPipe_no_pass (live : Bool) (xs : List Pipe) : ∀ (k : Bool) (s : GameState),
    (∀ q ∈ xs, passed s.bird.x q = false) → (forEachPipe live k xs s).2 = s := by
  induction xs with
  | nil => intro k s _; rw [forEachPipe_nil]
  | cons p rest ih =>
    intro k s h
    have hp := h p (List.mem_cons_self _ _)
    have hr : ∀ q ∈ rest, passed s.bird.x q = false :=
      fun q hq => h q (List.mem_cons_of_mem _ hq)
    cases k
    · simp only [forEachPipe, hp, Bool.false_eq_true, if_false]
      split_ifs with h1
      · exact ih live s hr
      · exact ih false s hr
    · simp only [forEachPipe]
      exact ih false s hr

/-! ## Lemmas on the stages of `update` -/

theorem updateAngle_shape (s : GameState) :
    updateAngle s = { s with bird := { s.bird with angle := (updateAngle s).bird.angle } } := by
  unfold updateAngle
  split_ifs <;> rfl

theorem updateAngle_pipes_comm (s : GameState) (ps : List Pipe) :
    updateAngle { s with pipes := ps } = { updateAngle s with pipes := ps } := by
  unfold updateAngle
  split_ifs <;> rfl

theorem spawnDue_updateAngle (time : ℚ) (s : GameState) :
    spawnDue time (updateAngle s) = spawnDue time s := by
  rw [updateAngle_shape s]; rfl

theorem updateKey_off (f : Frame) (s : GameState) (h : f.spaceJustDown = false) :
    updateKey f s = .ok s := by
  simp [updateKey, h]

theorem spaceKeyBranch_of_not_over (now : ℚ) (s : GameState) (ho : s.gameOver = false) :
    spaceKeyBranch now s = flapBird now s := by
  unfold spaceKeyBranch
  cases hs : s.gameStarted
  · rw [if_pos rfl]; exact (flapBird_notStarted now s hs ho).symm
  · rw [if_neg (by decide), ho, if_neg (by decide)]

/-- A flap outside game over, written out: it returns, and keeps the pipes, the
score and its display, the bird's position and `gameOver`. -/
theorem flapBird_not_over (now : ℚ) (s : GameState) (ho : s.gameOver = false) :
    flapBird now s =
      .ok { s with gameStarted := true
                   bird := { s.bird with allowGravity := s.bird.allowGravity || !s.gameStarted
                                         velocityY := -350 }
                   lastPipeTime := if s.gameStarted then s.lastPipeTime else now
                   startText := if s.gameStarted then s.startText
                                else s.startText.map (fun _ => false) } := by
  cases hs : s.gameStarted
  · rw [flapBird_notStarted now s hs ho, startGame_fresh now s ho]
    simp
  · rw [flapBird_playing now s hs ho]
    simp [hs]

theorem updateKey_not_over (f : Frame) (s : GameState) (ho : s.gameOver = false) :
    ∃ g a v t st, updateKey f s =
      .ok { s with gameStarted := g
                   bird := { s.bird with allowGravity := a, velocityY := v }
                   lastPipeTime := t
                   startText := st } := by
  unfold updateKey
  cases hk : f.spaceJustDown
  · exact ⟨s.gameStarted, s.bird.allowGravity, s.bird.velocityY, s.lastPipeTime, s.startText,
      rfl⟩
  · rw [if_pos rfl, spaceKeyBranch_of_not_over f.now s ho, flapBird_not_over f.now s ho]
    exact ⟨_, _, _, _, _, rfl⟩

/-- The key handling of a frame that does not restart returns. -/
theorem updateKey_returns (f : Frame) (s : GameState)
    (h : ¬(f.spaceJustDown = true ∧ s.gameOver = true)) :
    updateKey f s = .ok (vars (updateKey f s)) := by
  rcases Bool.eq_false_or_eq_true f.spaceJustDown with hk | hk
  · have ho : s.gameOver = false := by
      rcases Bool.eq_false_or_eq_true s.gameOver with ho | ho
      · exact absurd ⟨hk, ho⟩ h
      · exact ho
    obtain ⟨g, a, v, t, st, hs⟩ := updateKey_not_over f s ho
    rw [hs]; rfl
  · rw [updateKey_off f s hk]; rfl

/-- A key press during game over calls `restartGame`, whatever `gameStarted`
is: returned or thrown, the score is 0, `gameStarted` is clear and the
collection is empty or as it was, empty when the two prompts exist. -/
theorem updateKey_over (f : Frame) (s : GameState) (hk : f.spaceJustDown = true)
    (ho : s.gameOver = true) :
    (vars (updateKey f s)).score = 0 ∧ (vars (updateKey f s)).gameStarted = false ∧
    ((vars (updateKey f s)).pipes = [] ∨ (vars (updateKey f s)).pipes = s.pipes) ∧
    ((s.gameOverText.isSome && s.restartText.isSome) = true →
      (vars (updateKey f s)).pipes = []) := by
  unfold updateKey
  rw [hk, if_pos rfl]
  unfold spaceKeyBranch
  rcases Bool.eq_false_or_eq_true s.gameStarted with hs | hs
  · rw [hs, if_neg (by decide), ho, if_pos rfl]
    obtain ⟨h1, h2, _, h4, h5⟩ := restartGame_vars s
    exact ⟨h1, h2, h4, h5⟩
  · rw [hs, if_pos rfl]
    obtain ⟨h1, h2, _, h4, h5⟩ := startGame_gameOver_vars f.now s ho
    exact ⟨h1, h2, h4, h5⟩

theorem updateKey_pipes_comm (f : Frame) (s : GameState)
    (h : ¬(f.spaceJustDown = true ∧ s.gameOver = true)) (ps : List Pipe) :
    updateKey f { s with pipes := ps } = .ok { vars (updateKey f s) with pipes := ps } := by
  unfold updateKey
  cases hk : f.spaceJustDown
  · rfl
  · have ho : s.gameOver = false := by
      cases ho : s.gameOver
      · rfl
      · exact absurd ⟨hk, ho⟩ h
    rw [if_pos rfl, if_pos rfl, spaceKeyBranch_of_not_over f.now s ho,
      spaceKeyBranch_of_not_over f.now { s with pipes := ps } ho,
      flapBird_not_over f.now s ho, flapBird_not_over f.now { s with pipes := ps } ho]
    rfl

/-- A frame whose key handling returns goes on with the rotation, the spawn
block and the loop. -/
theorem update_of_key (e : Engine) (f : Frame) (s k : GameState)
    (h : updateKey f (updateScroll s) = .ok k) :
    update e f s = .ok (updatePipes e (updateSpawn e f (updateAngle k))) := by
  unfold update
  rw [h]

/-- A frame that does not restart returns, with the variables the four stages
after the key handling give. -/
theorem update_returns (e : Engine) (f : Frame) (s : GameState)
    (h : ¬(f.spaceJustDown = true ∧ s.gameOver = true)) :
    update e f s = .ok (vars (update e f s)) ∧
    vars (update e f s) =
      updatePipes e (updateSpawn e f (updateAngle (vars (updateKey f (updateScroll s))))) := by
  have hk := updateKey_returns f (updateScroll s) h
  have hu := update_of_key e f s _ hk
  rw [hu]
  exact ⟨rfl, rfl⟩

theorem spawns_of_key (f : Frame) (s k : GameState)
    (h : updateKey f (updateScroll s) = .ok k) :
    spawns (Event.frame f) s = spawnDue f.time (updateAngle k) := by
  simp only [spawns, h]

theorem updateSpawn_shape (e : Engine) (f : Frame) (s : GameState) :
    updateSpawn e f s =
      { s with pipes := s.pipes ++ (if spawnDue f.time s then pipePair e f.gapY.val else [])
               lastPipeTime := if spawnDue f.time s then f.time else s.lastPipeTime } := by
  unfold updateSpawn
  cases spawnDue f.time s
  · simp
  · rfl

theorem unscored_append (xs ys : List Pipe) : unscored (xs ++ ys) = unscored xs + unscored ys := by
  simp [unscored, List.countP_append]

theorem unscored_pipePair (e : Engine) (gapY : ℤ) : unscored (pipePair e gapY) = 1 := by
  simp [unscored, pipePair]

theorem updatePipes_shape (e : Engine) (s : GameState) :
    updatePipes e s =
      { s with pipes := (forEachPipe e.liveChildren false s.pipes s).1
               score := (forEachPipe e.liveChildren false s.pipes s).2.score
               scoreText := (forEachPipe e.liveChildren false s.pipes s).2.scoreText } := by
  unfold updatePipes
  simp only []
  rw [forEachPipe_frame]

/-- Two segments appended to the collection, neither of them beyond the cull
line and the second one already scored, are kept at its end; the first of them
is either left as it is or, if it passes the scoring test, marked. -/
theorem forEachPipe_append_pair (live : Bool) (a b : Pipe) (ha : ¬a.x < -50)
    (hb : ¬b.x < -50) (hbs : b.scored = true) (xs : List Pipe) :
    ∀ (k : Bool) (s : GameState),
      ∃ a1, (a1 = a ∨ (a1 = { a with scored := true } ∧ passed s.bird.x a = true)) ∧
        (forEachPipe live k (xs ++ [a, b]) s).1 = (forEachPipe live k xs s).1 ++ [a1, b] := by
  have hbp : ∀ bx, passed bx b = false := fun bx => passed_of_scored bx b hbs
  induction xs with
  | nil =>
    intro k s
    cases k
    · cases hp : passed s.bird.x a
      · exact ⟨a, Or.inl rfl, by
          simp [forEachPipe, hp, hbp, ha, hb]⟩
      · exact ⟨{ a with scored := true }, Or.inr ⟨rfl, rfl⟩, by
          simp [forEachPipe, hp, hbp, ha, hb]⟩
    · exact ⟨a, Or.inl rfl, by simp [forEachPipe, hbp, hb]⟩
  | cons p rest ih =>
    intro k s
    rw [List.cons_append]
    cases k
    · simp only [forEachPipe]
      split_ifs with h1 h2 h2
      · obtain ⟨a1, h, heq⟩ := ih live (addScore s)
        exact ⟨a1, h, heq⟩
      · exact ih live s
      · obtain ⟨a1, h, heq⟩ := ih false (addScore s)
        exact ⟨a1, h, by simp only [heq, List.cons_append]⟩
      · obtain ⟨a1, h, heq⟩ := ih false s
        exact ⟨a1, h, by simp only [heq, List.cons_append]⟩
    · simp only [forEachPipe]
      obtain ⟨a1, h, heq⟩ := ih false s
      exact ⟨a1, h, by simp only [heq, List.cons_append]⟩

theorem pipePair_eq (e : Engine) (gapY : ℤ) :
    ∃ top bottom : Pipe, pipePair e gapY = [top, bottom] ∧
      top.x = 960 ∧ bottom.x = 960 ∧ top.scored = false ∧ bottom.scored = true ∧
      top.height = e.pipeHeight ∧ bottom.height = e.pipeHeight ∧
      top.y + top.height / 2 = gapY - 60 ∧ bottom.y - bottom.height / 2 = gapY + 60 := by
  refine ⟨_, _, rfl, rfl, rfl, rfl, rfl, rfl, rfl, ?_, ?_⟩
  · simp only [pipeGap]; ring
  · simp only [pipeGap]; ring

/-- A frame without a key press, written out up to the loop over the pipes. -/
theorem update_no_key (e : Engine) (f : Frame) (s : GameState) (hk : f.spaceJustDown = false) :
    (vars (update e f s)).lastPipeTime = (if spawnDue f.time s then f.time else s.lastPipeTime) ∧
    (vars (update e f s)).gameStarted = s.gameStarted ∧
    (vars (update e f s)).gameOver = s.gameOver ∧
    (vars (update e f s)).pipes =
      (forEachPipe e.liveChildren false
        (s.pipes ++ (if spawnDue f.time s then pipePair e f.gapY.val else []))
        (updateSpawn e f (updateAngle (updateScroll s)))).1 ∧
    (updateSpawn e f (updateAngle (updateScroll s))).bird.x = s.bird.x := by
  rw [update_of_key e f s _ (updateKey_off f (updateScroll s) hk), updatePipes_shape,
    updateSpawn_shape, spawnDue_updateAngle, updateAngle_shape]
  exact ⟨rfl, rfl, rfl, rfl, rfl⟩

/-- A frame without a key press returns. -/
theorem update_no_key_returns (e : Engine) (f : Frame) (s : GameState)
    (hk : f.spaceJustDown = false) : update e f s = .ok (vars (update e f s)) := by
  rw [update_of_key e f s _ (updateKey_off f (updateScroll s) hk)]
  rfl

theorem spawnDue_iff (time : ℚ) (s : GameState) :
    spawnDue time s = true ↔
      (s.gameStarted = true ∧ s.gameOver = false ∧ time > s.lastPipeTime + 1500) := by
  simp [spawnDue, pipeSpawnTime, and_assoc]

/-- The pipes after a frame without key press that spawns: what the loop keeps
of the old collection, followed by the new pair. -/
theorem update_no_key_spawn (e : Engine) (f : Frame) (s : GameState)
    (hk : f.spaceJustDown = false) (hd : spawnDue f.time s = true) :
    ∃ old top bottom top1,
      pipePair e f.gapY.val = [top, bottom] ∧
      (top1 = top ∨ (top1 = { top with scored := true } ∧ 960 < s.bird.x)) ∧
      (vars (update e f s)).pipes = old ++ [top1, bottom] ∧
      old.length ≤ s.pipes.length ∧
      ∀ q ∈ old, ∃ p ∈ s.pipes, q = p ∨ q = { p with scored := true } := by
  obtain ⟨_, _, _, hp, hx⟩ := update_no_key e f s hk
  obtain ⟨top, bottom, hpair, htx, hbx, _, hbs, _⟩ := pipePair_eq e f.gapY.val
  rw [hd, if_pos rfl, hpair] at hp
  obtain ⟨a1, ha1, heq⟩ := forEachPipe_append_pair e.liveChildren top bottom
    (by rw [htx]; norm_num) (by rw [hbx]; norm_num) hbs s.pipes false
    (updateSpawn e f (updateAngle (updateScroll s)))
  refine ⟨_, top, bottom, a1, hpair, ?_, hp.trans heq, forEachPipe_length_le _ _ _ _,
    forEachPipe_mem _ _ _ _⟩
  rcases ha1 with h | ⟨h, hpass⟩
  · exact Or.inl h
  · refine Or.inr ⟨h, ?_⟩
    rw [hx] at hpass
    simp only [passed, Bool.and_eq_true, decide_eq_true_eq] at hpass
    rw [← htx]
    exact hpass.1.1.2

/-- The pipes after a frame without key press that does not spawn come from the
old collection. -/
theorem update_no_key_idle (e : Engine) (f : Frame) (s : GameState)
    (hk : f.spaceJustDown = false) (hd : spawnDue f.time s = false) :
    (vars (update e f s)).pipes.length ≤ s.pipes.length ∧
    ∀ q ∈ (vars (update e f s)).pipes,
      ∃ p ∈ s.pipes, q = p ∨ q = { p with scored := true } := by
  obtain ⟨_, _, _, hp, _⟩ := update_no_key e f s hk
  rw [hd] at hp
  simp only [Bool.false_eq_true, if_false, List.append_nil] at hp
  rw [hp]
  exact ⟨forEachPipe_length_le _ _ _ _, forEachPipe_mem _ _ _ _⟩

theorem spawns_no_key (f : Frame) (s : GameState) (hk : f.spaceJustDown = false) :
    spawns (Event.frame f) s = spawnDue f.time s := by
  rw [spawns_of_key f s _ (updateKey_off f (updateScroll s) hk), spawnDue_updateAngle]
  rfl

theorem spawnDue_eq_false (time : ℚ) (s : GameState)
    (h : ¬(s.gameStarted = true ∧ s.gameOver = false ∧ time > s.lastPipeTime + 1500)) :
    spawnDue time s = false := by
  cases hd : spawnDue time s
  · rfl
  · exact absurd ((spawnDue_iff time s).1 hd) h

/-- A frame without key press whose spawn test fails keeps the flags and the
reference, and keeps an empty collection empty. -/
theorem update_no_key_idle_fields (e : Engine) (f : Frame) (s : GameState)
    (hk : f.spaceJustDown = false) (hd : spawnDue f.time s = false) :
    (vars (update e f s)).lastPipeTime = s.lastPipeTime ∧
    (vars (update e f s)).gameStarted = s.gameStarted ∧
    (vars (update e f s)).gameOver = s.gameOver ∧
    (s.pipes = [] → (vars (update e f s)).pipes = []) := by
  obtain ⟨hl, hg, ho, _, _⟩ := update_no_key e f s hk
  rw [hd, if_neg (by decide)] at hl
  refine ⟨hl, hg, ho, fun hp => ?_⟩
  have := (update_no_key_idle e f s hk hd).1
  rw [hp] at this
  exact List.length_eq_zero.1 (Nat.le_zero.1 this)

/-- The segments the loop keeps and the points it adds do not depend on the
score it starts from. -/
theorem forEachPipe_shift (live : Bool) (xs : List Pipe) :
    ∀ (k : Bool) (s t : GameState), s.bird.x = t.bird.x →
      (forEachPipe live k xs s).1 = (forEachPipe live k xs t).1 ∧
      (forEachPipe live k xs s).2.score + t.score =
        (forEachPipe live k xs t).2.score + s.score := by
  induction xs with
  | nil => intro k s t _; rw [forEachPipe_nil, forEachPipe_nil]; exact ⟨rfl, Nat.add_comm _ _⟩
  | cons p rest ih =>
    intro k s t h
    cases k
    · simp only [forEachPipe, h]
      split_ifs with h1 h2 h2
      · obtain ⟨e1, e2⟩ := ih live (addScore s) (addScore t) h
        rw [addScore_score, addScore_score] at e2
        exact ⟨e1, by omega⟩
      · exact ih live s t h
      · obtain ⟨e1, e2⟩ := ih false (addScore s) (addScore t) h
        rw [addScore_score, addScore_score] at e2
        exact ⟨by rw [e1], by dsimp only; omega⟩
      · obtain ⟨e1, e2⟩ := ih false s t h
        exact ⟨by rw [e1], e2⟩
    · simp only [forEachPipe]
      obtain ⟨e1, e2⟩ := ih false s t h
      exact ⟨by rw [e1], e2⟩

/-- A segment that passes the scoring test and is visited by the loop (it is the
first one, or the one in front of it is not culled when the array is live)
counts for exactly one point: the loop keeps the same segments as if the segment
had been scored before, and ends with one point more. -/
theorem forEachPipe_scored_segment (live : Bool) (bx : ℚ) (p : Pipe) (rest : List Pipe)
    (hp : passed bx p = true) :
    ∀ (pre : List Pipe) (k : Bool) (s : GameState), s.bird.x = bx →
      (pre = [] → k = false) →
      (live = true → ∀ pre0 q, pre = pre0 ++ [q] → ¬q.x < -50) →
      (forEachPipe live k (pre ++ p :: rest) s).1 =
        (forEachPipe live k (pre ++ { p with scored := true } :: rest) s).1 ∧
      (forEachPipe live k (pre ++ p :: rest) s).2.score =
        (forEachPipe live k (pre ++ { p with scored := true } :: rest) s).2.score + 1 ∧
      (¬p.x < -50 →
        { p with scored := true } ∈ (forEachPipe live k (pre ++ p :: rest) s).1) := by
  intro pre
  induction pre with
  | nil =>
    intro k s hs hk _
    rw [hk rfl]
    have hq : passed s.bird.x { p with scored := true } = false := passed_of_scored _ _ rfl
    rw [← hs] at hp
    simp only [List.nil_append, forEachPipe, hp, hq, if_true, Bool.false_eq_true, if_false]
    split_ifs with h1
    · obtain ⟨e1, e2⟩ := forEachPipe_shift live rest live (addScore s) s rfl
      rw [addScore_score] at e2
      exact ⟨e1, by omega, fun h => absurd h1 h⟩
    · obtain ⟨e1, e2⟩ := forEachPipe_shift live rest false (addScore s) s rfl
      rw [addScore_score] at e2
      exact ⟨by rw [e1], by dsimp only; omega, fun _ => List.mem_cons_self _ _⟩
  | cons q pre ih =>
    intro k s hs _ hv
    have hv1 : live = true → ∀ pre0 q0, pre = pre0 ++ [q0] → ¬q0.x < -50 := by
      intro hl pre0 q0 h0
      exact hv hl (q :: pre0) q0 (by rw [h0, List.cons_append])
    rw [List.cons_append, List.cons_append]
    cases k
    · simp only [forEachPipe]
      have hlive : q.x < -50 → pre = [] → live = false := by
        intro hc hn
        cases hl : live
        · rfl
        · exact absurd hc (hv hl [] q (by rw [hn, List.nil_append]))
      split_ifs with h1 h2 h2
      · exact ih live (addScore s) hs (hlive h1) hv1
      · exact ih live s hs (hlive h1) hv1
      · obtain ⟨e1, e2, e3⟩ := ih false (addScore s) hs (fun _ => rfl) hv1
        exact ⟨by rw [e1], e2, fun h => List.mem_cons_of_mem _ (e3 h)⟩
      · obtain ⟨e1, e2, e3⟩ := ih false s hs (fun _ => rfl) hv1
        exact ⟨by rw [e1], e2, fun h => List.mem_cons_of_mem _ (e3 h)⟩
    · simp only [forEachPipe]
      obtain ⟨e1, e2, e3⟩ := ih false s hs (fun _ => rfl) hv1
      exact ⟨by rw [e1], e2, fun h => List.mem_cons_of_mem _ (e3 h)⟩

/-- A frame that does not restart keeps the bird's horizontal position and the
score up to the loop over the pipes. -/
theorem front_keeps (e : Engine) (f : Frame) (s : GameState)
    (h : ¬(f.spaceJustDown = true ∧ s.gameOver = true)) :
    (updateSpawn e f (updateAngle (vars (updateKey f (updateScroll s))))).bird.x = s.bird.x ∧
    (updateSpawn e f (updateAngle (vars (updateKey f (updateScroll s))))).score = s.score ∧
    (updateAngle (vars (updateKey f (updateScroll s)))).pipes = s.pipes := by
  rw [updateSpawn_shape, updateAngle_shape]
  cases hk : f.spaceJustDown
  · rw [updateKey_off f _ hk]
    exact ⟨rfl, rfl, rfl⟩
  · have ho : (updateScroll s).gameOver = false := by
      cases ho : s.gameOver
      · exact ho
      · exact absurd ⟨hk, ho⟩ h
    obtain ⟨g, a, v, t, st, hs⟩ := updateKey_not_over f (updateScroll s) ho
    rw [hs]
    exact ⟨rfl, rfl, rfl⟩

/-- A frame that does not restart, with the collection replaced by `ps`: the
loop runs over `ps` followed by the segments spawned in this frame, if any. -/
theorem update_via_base (e : Engine) (f : Frame) (s : GameState)
    (h : ¬(f.spaceJustDown = true ∧ s.gameOver = true)) (ps : List Pipe) :
    (vars (update e f { s with pipes := ps })).pipes =
      (forEachPipe e.liveChildren false
        (ps ++ (if spawns (Event.frame f) s then pipePair e f.gapY.val else []))
        (updateSpawn e f (updateAngle (vars (updateKey f (updateScroll s)))))).1 ∧
    (vars (update e f { s with pipes := ps })).score =
      (forEachPipe e.liveChildren false
        (ps ++ (if spawns (Event.frame f) s then pipePair e f.gapY.val else []))
        (updateSpawn e f (updateAngle (vars (updateKey f (updateScroll s)))))).2.score := by
  have hsp : spawns (Event.frame f) s =
      spawnDue f.time (updateAngle (vars (updateKey f (updateScroll s)))) :=
    spawns_of_key f s _ (updateKey_returns f (updateScroll s) h)
  have h1 : updateScroll { s with pipes := ps } = { updateScroll s with pipes := ps } := rfl
  have hk : updateKey f (updateScroll { s with pipes := ps }) =
      .ok { vars (updateKey f (updateScroll s)) with pipes := ps } := by
    rw [h1]; exact updateKey_pipes_comm f (updateScroll s) h ps
  have hc : updateSpawn e f (updateAngle { vars (updateKey f (updateScroll s)) with
        pipes := ps }) =
      { updateSpawn e f (updateAngle (vars (updateKey f (updateScroll s)))) with
        pipes := ps ++ (if spawns (Event.frame f) s then pipePair e f.gapY.val else []) } := by
    rw [hsp, updateAngle_pipes_comm, updateSpawn_shape, updateSpawn_shape]
    rfl
  rw [update_of_key e f _ _ hk, hc, updatePipes_shape]
  obtain ⟨e1, e2⟩ := forEachPipe_shift e.liveChildren
    (ps ++ (if spawns (Event.frame f) s then pipePair e f.gapY.val else [])) false
    { updateSpawn e f (updateAngle (vars (updateKey f (updateScroll s)))) with
      pipes := ps ++ (if spawns (Event.frame f) s then pipePair e f.gapY.val else []) }
    (updateSpawn e f (updateAngle (vars (updateKey f (updateScroll s))))) rfl
  exact ⟨e1, by simpa [vars] using e2⟩

/-! ## Lemmas on runs -/

theorem unscored_stopped (xs : List Pipe) :
    unscored (xs.map (fun pipe => { pipe with velocityX := 0 })) = unscored xs := by
  induction xs with
  | nil => rfl
  | cons p rest ih => rw [List.map_cons, unscored_cons, unscored_cons, ih]

theorem unscored_movePipes (m : Motion) (xs : List Pipe) :
    ∀ i, unscored (movePipes m i xs) = unscored xs := by
  induction xs with
  | nil => intro i; rfl
  | cons p rest ih => intro i; rw [movePipes, unscored_cons, unscored_cons, ih]

theorem updateAngle_score (s : GameState) : (updateAngle s).score = s.score := by
  rw [updateAngle_shape]

theorem updateAngle_pipes (s : GameState) : (updateAngle s).pipes = s.pipes := by
  rw [updateAngle_shape]

theorem restartsFully_of_not_restarts (ev : Event) (s : GameState)
    (h : restarts ev s = false) : restartsFully ev s = false := by
  simp [restartsFully, h]

/-- The score and the pipes after the key handling of a frame, returned or
thrown. -/
theorem updateKey_account (f : Frame) (s : GameState) :
    ((vars (updateKey f (updateScroll s))).score +
        unscored (vars (updateKey f (updateScroll s))).pipes ≤
      if restartsFully (Event.frame f) s then 0 else s.score + unscored s.pipes) ∧
    (restarts (Event.frame f) s = false →
      (vars (updateKey f (updateScroll s))).score = s.score) ∧
    (restarts (Event.frame f) s = true →
      (vars (updateKey f (updateScroll s))).gameStarted = false) := by
  rcases Bool.eq_false_or_eq_true f.spaceJustDown with hk | hk
  · rcases Bool.eq_false_or_eq_true s.gameOver with ho | ho
    · have hr : restarts (Event.frame f) s = true := by simp [restarts, hk, ho]
      obtain ⟨h1, h2, h3, h4⟩ := updateKey_over f (updateScroll s) hk ho
      refine ⟨?_, fun h => absurd (hr.symm.trans h) (by decide), fun _ => h2⟩
      rw [h1]
      rcases Bool.eq_false_or_eq_true (restartsFully (Event.frame f) s) with hf | hf
      · rw [hf, if_pos rfl]
        have hp : ((updateScroll s).gameOverText.isSome &&
            (updateScroll s).restartText.isSome) = true := by
          simp only [restartsFully, Bool.and_eq_true] at hf
          simp only [Bool.and_eq_true]
          exact ⟨hf.1.2, hf.2⟩
        rw [h4 hp]
        exact le_refl _
      · rw [hf, if_neg (by decide)]
        rcases h3 with h3 | h3
        · rw [h3]; simp [unscored]
        · rw [h3]
          show 0 + unscored s.pipes ≤ _
          omega
    · have hr : restarts (Event.frame f) s = false := by simp [restarts, ho]
      obtain ⟨g, a, v, t, st, hs⟩ := updateKey_not_over f (updateScroll s) ho
      rw [hs, restartsFully_of_not_restarts _ _ hr, hr]
      exact ⟨le_refl _, fun _ => rfl, fun h => absurd h (by decide)⟩
  · have hr : restarts (Event.frame f) s = false := by simp [restarts, hk]
    rw [updateKey_off f _ hk, restartsFully_of_not_restarts _ _ hr, hr]
    exact ⟨le_refl _, fun _ => rfl, fun h => absurd h (by decide)⟩

/-- One frame, returned or thrown: what the stages after the key handling add
to the score is paid with clear flags, one more being brought by a spawn. -/
theorem update_after_key (e : Engine) (f : Frame) (s : GameState) :
    (vars (update e f s)).score + unscored (vars (update e f s)).pipes ≤
      (vars (updateKey f (updateScroll s))).score +
        unscored (vars (updateKey f (updateScroll s))).pipes +
        (if spawns (Event.frame f) s then 1 else 0) ∧
    (vars (updateKey f (updateScroll s))).score ≤ (vars (update e f s)).score := by
  cases hk : updateKey f (updateScroll s) with
  | error k =>
    have hu : update e f s = .error k := by unfold update; rw [hk]
    rw [hu]
    exact ⟨Nat.le_add_right _ _, le_refl _⟩
  | ok k =>
    rw [update_of_key e f s k hk, spawns_of_key f s k hk]
    show (updatePipes e (updateSpawn e f (updateAngle k))).score +
      unscored (updatePipes e (updateSpawn e f (updateAngle k))).pipes ≤
        k.score + unscored k.pipes + _ ∧
      k.score ≤ (updatePipes e (updateSpawn e f (updateAngle k))).score
    have h1 := forEachPipe_account e.liveChildren
      (updateSpawn e f (updateAngle k)).pipes false (updateSpawn e f (updateAngle k))
    have h2 := forEachPipe_score_le e.liveChildren
      (updateSpawn e f (updateAngle k)).pipes false (updateSpawn e f (updateAngle k))
    have h3 : (updateSpawn e f (updateAngle k)).score +
        unscored (updateSpawn e f (updateAngle k)).pipes =
        k.score + unscored k.pipes +
          (if spawnDue f.time (updateAngle k) then 1 else 0) := by
      rw [updateSpawn_shape]
      show (updateAngle k).score + unscored ((updateAngle k).pipes ++ _) = _
      rw [unscored_append, updateAngle_score, updateAngle_pipes]
      rcases Bool.eq_false_or_eq_true (spawnDue f.time (updateAngle k)) with hd | hd
      · rw [hd, if_pos rfl, if_pos rfl, unscored_pipePair]
        omega
      · rw [hd, if_neg (by decide), if_neg (by decide)]
        rfl
    have h4 : (updateSpawn e f (updateAngle k)).score = k.score := by
      rw [updateSpawn_shape]
      exact updateAngle_score k
    rw [updatePipes_shape]
    rw [h3] at h1
    rw [h4] at h2
    exact ⟨h1, h2⟩

/-- One frame: the score plus the number of clear flags grows by at most one,
and only when the frame spawns; after a restart carried out it starts again
from 0. -/
theorem update_account (e : Engine) (f : Frame) (s : GameState) :
    (vars (update e f s)).score + unscored (vars (update e f s)).pipes ≤
      (if restartsFully (Event.frame f) s then 0 else s.score + unscored s.pipes) +
        (if spawns (Event.frame f) s then 1 else 0) := by
  have h1 := (update_after_key e f s).1
  have h2 := (updateKey_account f s).1
  omega

theorem update_score_le (e : Engine) (f : Frame) (s : GameState)
    (h : restarts (Event.frame f) s = false) : s.score ≤ (vars (update e f s)).score := by
  have h1 := (update_after_key e f s).2
  rw [(updateKey_account f s).2.1 h] at h1
  exact h1

/-- Returned or thrown, `gameOverHandler` keeps the score and every `scored`
flag. -/
theorem gameOverHandler_account (s : GameState) :
    (vars (gameOverHandler s)).score = s.score ∧
    unscored (vars (gameOverHandler s)).pipes = unscored s.pipes := by
  unfold gameOverHandler
  split_ifs
  · exact ⟨rfl, rfl⟩
  · cases hg : s.gameOverText <;> cases hr : s.restartText <;>
      simp [vars, hg, hr, unscored_stopped]

/-- One event: the score plus the number of clear flags grows by at most one,
and only when the event spawns; after a restart carried out it starts again
from 0. -/
theorem step_account (e : Engine) (ev : Event) (s : GameState) :
    (step e ev s).score + unscored (step e ev s).pipes ≤
      (if restartsFully ev s then 0 else s.score + unscored s.pipes) +
        (if spawns ev s then 1 else 0) := by
  cases ev with
  | frame f => exact update_account e f s
  | pointerDown now =>
    have hsp : spawns (Event.pointerDown now) s = false := rfl
    rcases Bool.eq_false_or_eq_true s.gameOver with ho | ho
    · have hst : step e (Event.pointerDown now) s = vars (restartGame s) :=
        congrArg vars (flapBird_gameOver now s ho)
      obtain ⟨h1, _, _, h4, h5⟩ := restartGame_vars s
      rw [hst, hsp, h1]
      rcases Bool.eq_false_or_eq_true (restartsFully (Event.pointerDown now) s) with hf | hf
      · have hp : (s.gameOverText.isSome && s.restartText.isSome) = true := by
          simp only [restartsFully, Bool.and_eq_true] at hf
          simp only [Bool.and_eq_true]
          exact ⟨hf.1.2, hf.2⟩
        rw [hf, h5 hp]
        simp [unscored]
      · rw [hf]
        rcases h4 with h4 | h4
        · rw [h4]; simp [unscored]
        · rw [h4]; simp
    · have hr : restarts (Event.pointerDown now) s = false := ho
      have hst : step e (Event.pointerDown now) s = _ :=
        congrArg vars (flapBird_not_over now s ho)
      rw [hst, restartsFully_of_not_restarts _ _ hr, hsp]
      simp [vars]
  | collision =>
    have hsp : spawns Event.collision s = false := rfl
    have hr : restartsFully Event.collision s = false := rfl
    obtain ⟨h1, h2⟩ := gameOverHandler_account s
    have hst : (step e Event.collision s).score + unscored (step e Event.collision s).pipes =
        s.score + unscored s.pipes := by
      show (vars (gameOverHandler s)).score + unscored (vars (gameOverHandler s)).pipes = _
      rw [h1, h2]
    rw [hst, hr, hsp]
    simp
  | physics m =>
    have hsp : spawns (Event.physics m) s = false := rfl
    have hr : restartsFully (Event.physics m) s = false := rfl
    have hst : (step e (Event.physics m) s).score + unscored (step e (Event.physics m) s).pipes =
        s.score + unscored s.pipes := by
      show s.score + unscored (movePipes m 0 s.pipes) = _
      rw [unscored_movePipes]
    rw [hst, hr, hsp]
    simp
  | fontCallback =>
    have hsp : spawns Event.fontCallback s = false := rfl
    have hr : restartsFully Event.fontCallback s = false := rfl
    have hst : (step e Event.fontCallback s).score +
        unscored (step e Event.fontCallback s).pipes = s.score + unscored s.pipes := rfl
    rw [hst, hr, hsp]
    simp

/-- Unless it calls `restartGame`, no event lowers the score. -/
theorem step_score_le (e : Engine) (ev : Event) (s : GameState)
    (h : restarts ev s = false) : s.score ≤ (step e ev s).score := by
  cases ev with
  | frame f => exact update_score_le e f s h
  | pointerDown now =>
    have ho : s.gameOver = false := h
    have hst : step e (Event.pointerDown now) s = _ :=
      congrArg vars (flapBird_not_over now s ho)
    rw [hst]
    exact le_refl _
  | collision =>
    show s.score ≤ (vars (gameOverHandler s)).score
    rw [(gameOverHandler_account s).1]
  | physics m => exact le_refl _
  | fontCallback => exact le_refl _

theorem runGame_account (e : Engine) (evs : List Event) :
    ∀ c : GameState × ℕ, c.1.score + unscored c.1.pipes ≤ c.2 →
      (runGame e evs c).1.score + unscored (runGame e evs c).1.pipes ≤ (runGame e evs c).2 := by
  induction evs with
  | nil => intro c h; exact h
  | cons ev evs ih =>
    intro c h
    simp only [runGame]
    apply ih
    have h1 := step_account e ev c.1
    dsimp only
    split_ifs at h1 ⊢ <;> omega

theorem runGame_fst (e : Engine) (evs : List Event) :
    ∀ c : GameState × ℕ, (runGame e evs c).1 = evs.foldl (fun t ev => step e ev t) c.1 := by
  induction evs with
  | nil => intro c; rfl
  | cons ev evs ih => intro c; simp only [runGame, List.foldl_cons]; rw [ih]

/-- An event that carries a restart out leaves score 0 and an empty
collection. -/
theorem step_restartsFully (e : Engine) (ev : Event) (s : GameState)
    (h : restartsFully ev s = true) :
    (step e ev s).score = 0 ∧ (step e ev s).pipes = [] := by
  simp only [restartsFully, Bool.and_eq_true] at h
  obtain ⟨⟨hr, hg⟩, hrt⟩ := h
  have hp : (s.gameOverText.isSome && s.restartText.isSome) = true := by
    simp only [Bool.and_eq_true]; exact ⟨hg, hrt⟩
  cases ev with
  | frame f =>
    simp only [restarts, Bool.and_eq_true] at hr
    obtain ⟨h1, h2, _, h4⟩ := updateKey_over f (updateScroll s) hr.1 hr.2
    have h5 := h4 hp
    show (vars (update e f s)).score = 0 ∧ (vars (update e f s)).pipes = []
    cases hK : updateKey f (updateScroll s) with
    | error k =>
      have hu : update e f s = .error k := by unfold update; rw [hK]
      rw [hK] at h1 h5
      rw [hu]
      exact ⟨h1, h5⟩
    | ok k =>
      rw [hK] at h1 h2 h5
      have k1 : k.score = 0 := h1
      have k2 : k.gameStarted = false := h2
      have k5 : k.pipes = [] := h5
      have hd : spawnDue f.time (updateAngle k) = false := by
        rw [spawnDue_updateAngle]
        simp [spawnDue, k2]
      rw [update_of_key e f s k hK, updatePipes_shape, updateSpawn_shape, hd]
      show (forEachPipe e.liveChildren false ((updateAngle k).pipes ++ []) _).2.score = 0 ∧
        (forEachPipe e.liveChildren false ((updateAngle k).pipes ++ []) _).1 = []
      rw [List.append_nil, updateAngle_pipes, k5, forEachPipe_nil]
      exact ⟨(updateAngle_score k).trans k1, rfl⟩
  | pointerDown now =>
    have ho : s.gameOver = true := hr
    have hst : step e (Event.pointerDown now) s = vars (restartGame s) :=
      congrArg vars (flapBird_gameOver now s ho)
    obtain ⟨h1, _, _, _, h5⟩ := restartGame_vars s
    rw [hst]
    exact ⟨h1, h5 hp⟩
  | collision => exact absurd hr Bool.false_ne_true
  | physics m => exact absurd hr Bool.false_ne_true
  | fontCallback => exact absurd hr Bool.false_ne_true
/-! ## The state machine: start, flap, collision, restart -/

/-- C1: from NotStarted, the first flap of a sequence (pointer or space key)
returns and starts the game: `gameStarted` is set, `gameOver` stays clear, the
bird gets gravity and vertical velocity -350, and `lastPipeTime` is the scene
clock.  Every later flap of the sequence, and more generally a flap in any
Playing state, returns and changes nothing but the bird's vertical velocity,
which it sets to -350.  This holds whether or not the prompts exist yet. -/
theorem first_flap_starts_later_flaps_lift (s : GameState)
    (hs : s.gameStarted = false) (ho : s.gameOver = false)
    (i : FlapInput × ℚ) (is : List (FlapInput × ℚ)) :
    (flap i s = .ok (vars (flap i s)) ∧
      (vars (flap i s)).gameStarted = true ∧ (vars (flap i s)).gameOver = false ∧
      (vars (flap i s)).bird.allowGravity = true ∧
      (vars (flap i s)).bird.velocityY = -350 ∧
      (vars (flap i s)).lastPipeTime = i.2) ∧
    (∀ pre j post, is = pre ++ j :: post →
      flap j (runFlaps (vars (flap i s)) pre) =
        .ok { runFlaps (vars (flap i s)) pre with
              bird := { (runFlaps (vars (flap i s)) pre).bird with velocityY := -350 } }) ∧
    (∀ (p : GameState) (j : FlapInput × ℚ), p.gameStarted = true → p.gameOver = false →
      flap j p = .ok { p with bird := { p.bird with velocityY := -350 } }) := by
  have h1 : flap i s = _ := (flap_notStarted i s hs ho).trans (startGame_fresh i.2 s ho)
  refine ⟨?_, ?_, fun p j hp1 hp2 => flap_playing j p hp1 hp2⟩
  · rw [h1]; exact ⟨rfl, rfl, ho, rfl, rfl, rfl⟩
  · intro pre j post _
    have hp := runFlaps_playing pre (vars (flap i s)) (by rw [h1]; rfl)
      (by rw [h1]; exact ho)
    exact flap_playing j _ hp.1 hp.2

/-- The first flap theorem at the created scene, the prompts still undefined: a
pointer press at clock 5 followed by a space press and a pointer press. -/
theorem first_flap_starts_later_flaps_lift_witness :
    (create "" true).gameStarted = false ∧ (create "" true).gameOver = false ∧
    (vars (flap (FlapInput.pointer, 5) (create "" true))).lastPipeTime = 5 ∧
    (vars (flap (FlapInput.pointer, 5) (create "" true))).bird.velocityY = -350 :=
  have h := first_flap_starts_later_flaps_lift (create "" true) rfl rfl
    (FlapInput.pointer, 5) [(FlapInput.spaceKey, 7), (FlapInput.pointer, 9)]
  ⟨rfl, rfl, h.1.2.2.2.2.2, h.1.2.2.2.2.1⟩

/-- C2 does not hold of the code: `gameOverHandler` sets
`gameOverText.visible` (line 267) without the guard the script puts around
`startText`, and the prompts are undefined until the font loader calls
`createTextElements`.  In the Playing scene `playingBeforePrompts`, reached from
`create` by a start, a frame that spawns and a physics step, the first call sets
`gameOver` and stops both pipes, then throws: the bird keeps its vertical
velocity 450 and its gravity.  With the two prompts in place the first call in a
Playing state returns and does all the claim says, and with `gameOver` set the
call returns the state unchanged, prompts or not. -/
theorem gameOverHandler_throws_before_prompts :
    (playingBeforePrompts =
        physicsStep fallingBird
          (vars (update (engine400 true) (quietFrame 1501)
            (vars (flapBird 0 (create "Score: 0" true)))))) ∧
    (playingBeforePrompts.gameStarted = true ∧ playingBeforePrompts.gameOver = false ∧
      playingBeforePrompts.gameOverText = none ∧
      playingBeforePrompts.bird.velocityY = 450 ∧
      playingBeforePrompts.bird.allowGravity = true ∧
      gameOverHandler playingBeforePrompts = .error gameOverBeforePrompts ∧
      gameOverBeforePrompts.gameOver = true ∧
      gameOverBeforePrompts.pipes.length = 2 ∧
      (∀ pipe ∈ gameOverBeforePrompts.pipes, pipe.velocityX = 0) ∧
      gameOverBeforePrompts.bird.velocityY = 450 ∧
      gameOverBeforePrompts.bird.allowGravity = true) ∧
    (∀ (s : GameState) (a b : Bool), s.gameStarted = true → s.gameOver = false →
      s.gameOverText = some a → s.restartText = some b →
      gameOverHandler s = .ok (vars (gameOverHandler s)) ∧
      (vars (gameOverHandler s)).gameOver = true ∧
      (vars (gameOverHandler s)).pipes =
        s.pipes.map (fun pipe => { pipe with velocityX := 0 }) ∧
      (∀ pipe ∈ (vars (gameOverHandler s)).pipes, pipe.velocityX = 0) ∧
      (vars (gameOverHandler s)).bird.velocityX = 0 ∧
      (vars (gameOverHandler s)).bird.velocityY = 0 ∧
      (vars (gameOverHandler s)).bird.allowGravity = false) ∧
    (∀ s : GameState, s.gameOver = true → gameOverHandler s = .ok s) := by
  refine ⟨?_, ⟨rfl, rfl, rfl, rfl, rfl, rfl, rfl, rfl, ?_, rfl, rfl⟩, ?_, ?_⟩
  · rw [flapBird_notStarted 0 _ rfl rfl, startGame_fresh 0 _ rfl,
      update_of_key _ _ _ _ (updateKey_off _ _ rfl)]
    norm_num [playingBeforePrompts, physicsStep, fallingBird, vars, updatePipes, updateSpawn,
      updateAngle, updateScroll, spawnDue, spawnPipes, forEachPipe, passed, create, quietFrame,
      engine400, pipePair, pipeGap, pipeSpeed, pipeSpawnTime, movePipes, Math.clamp]
  · intro pipe hp
    have hq : gameOverBeforePrompts.pipes =
        playingBeforePrompts.pipes.map (fun pipe => { pipe with velocityX := 0 }) := rfl
    rw [hq, List.mem_map] at hp
    obtain ⟨q, _, rfl⟩ := hp
    rfl
  · intro s a b _ ho hg hr
    simp only [gameOverHandler, ho, hg, hr, vars]
    refine ⟨rfl, rfl, rfl, ?_, rfl, rfl, rfl⟩
    intro pipe hp
    simp only [Bool.false_eq_true, if_false, List.mem_map] at hp
    obtain ⟨q, _, rfl⟩ := hp
    rfl
  · intro s ho
    simp [gameOverHandler, ho]

/-- C3 does not hold of the code: `restartGame` sets `gameOverText.visible`
(line 292) without the guard the script puts around `startText`.  In the
game-over scene `gameOverBeforePrompts`, which the collision of C2 leaves with
the prompts still undefined, a pointer press calls `restartGame`, which resets
the flags, the score and its display, then throws: the two pipes stay in the collection and the bird stays at
y = 520 with angle -30, vertical velocity 450 and gravity.  With the two prompts
in place `restartGame` returns and does all the claim says. -/
theorem restartGame_throws_before_prompts :
    (gameOverBeforePrompts.gameOver = true ∧ gameOverBeforePrompts.gameOverText = none ∧
      flapBird 2000 gameOverBeforePrompts = restartGame gameOverBeforePrompts ∧
      restartGame gameOverBeforePrompts = .error (vars (restartGame gameOverBeforePrompts)) ∧
      (vars (restartGame gameOverBeforePrompts)).score = 0 ∧
      (vars (restartGame gameOverBeforePrompts)).scoreText = "Score: 0" ∧
      (vars (restartGame gameOverBeforePrompts)).gameOver = false ∧
      (vars (restartGame gameOverBeforePrompts)).gameStarted = false ∧
      (vars (restartGame gameOverBeforePrompts)).pipes = gameOverBeforePrompts.pipes ∧
      (vars (restartGame gameOverBeforePrompts)).pipes.length = 2 ∧
      (vars (restartGame gameOverBeforePrompts)).bird.y = 520 ∧
      (vars (restartGame gameOverBeforePrompts)).bird.angle = -30 ∧
      (vars (restartGame gameOverBeforePrompts)).bird.velocityY = 450 ∧
      (vars (restartGame gameOverBeforePrompts)).bird.allowGravity = true) ∧
    (∀ (s : GameState) (a b : Bool), s.gameOver = true →
      s.gameOverText = some a → s.restartText = some b →
      restartGame s = .ok (vars (restartGame s)) ∧
      (vars (restartGame s)).score = 0 ∧ (vars (restartGame s)).scoreText = "Score: 0" ∧
      (vars (restartGame s)).pipes = [] ∧
      (vars (restartGame s)).bird.x = 80 ∧ (vars (restartGame s)).bird.y = 300 ∧
      (∀ d w, (vars (restartGame s)).bird.x = (create d w).bird.x ∧
        (vars (restartGame s)).bird.y = (create d w).bird.y) ∧
      (vars (restartGame s)).bird.angle = 0 ∧ (vars (restartGame s)).bird.velocityY = 0 ∧
      (vars (restartGame s)).bird.allowGravity = false ∧
      (vars (restartGame s)).gameOver = false ∧
      (vars (restartGame s)).gameStarted = false) := by
  refine ⟨⟨rfl, rfl, flapBird_gameOver 2000 gameOverBeforePrompts rfl, rfl, rfl,
    scoreText_zero, rfl, rfl, rfl, rfl, rfl, rfl, rfl, rfl⟩, ?_⟩
  intro s a b _ hg hr
  rw [restartGame_ok s a b hg hr]
  refine ⟨rfl, rfl, scoreText_zero, rfl, rfl, rfl, fun d w => ?_, rfl, rfl, rfl, rfl, rfl⟩
  cases w <;> exact ⟨rfl, rfl⟩

/-! ## The two flap sources compared -/

/-- C10, as stated, fails: with `gameStarted` clear and `gameOver` set, the key
branch goes through `startGame`, which after the restart still stores the scene
clock in `lastPipeTime` and hides the start prompt, while `flapBird` only
restarts. -/
theorem spaceKeyBranch_differs_from_flapBird :
    overBeforeStart.gameStarted = false ∧ overBeforeStart.gameOver = true ∧
    spaceKeyBranch 5 overBeforeStart ≠ flapBird 5 overBeforeStart ∧
    spaceKeyBranch 5 overBeforeStart = .ok (vars (spaceKeyBranch 5 overBeforeStart)) ∧
    flapBird 5 overBeforeStart = .ok (vars (flapBird 5 overBeforeStart)) ∧
    (vars (spaceKeyBranch 5 overBeforeStart)).lastPipeTime = 5 ∧
    (vars (flapBird 5 overBeforeStart)).lastPipeTime = 0 ∧
    (vars (spaceKeyBranch 5 overBeforeStart)).startText = some false ∧
    (vars (flapBird 5 overBeforeStart)).startText = some true := by
  have hk : spaceKeyBranch 5 overBeforeStart = startGame 5 overBeforeStart := by
    rw [spaceKeyBranch]
    exact if_pos rfl
  have hr := restartGame_ok overBeforeStart true true rfl rfl
  have hr1 := restartGame_ok
    { overBeforeStart with gameStarted := true
                           bird := { overBeforeStart.bird with allowGravity := true } }
    true true rfl rfl
  rw [hk, startGame_gameOver 5 overBeforeStart rfl, flapBird_gameOver 5 overBeforeStart rfl,
    hr, hr1]
  refine ⟨rfl, rfl, ?_, rfl, rfl, rfl, rfl, rfl, rfl⟩
  intro h
  have h2 := congrArg (fun o => (vars o).lastPipeTime) h
  norm_num [vars, overBeforeStart, create, createTextElements] at h2

/-- C10, amended: in every state other than those with `gameStarted` clear and
`gameOver` set, a space press handled by the key branch of `update` and a
pointer press handled by `flapBird` give the same outcome: the same variables,
and a `TypeError` in the one exactly when in the other. -/
theorem spaceKeyBranch_eq_flapBird (now : ℚ) (s : GameState)
    (h : s.gameStarted = true ∨ s.gameOver = false) :
    spaceKeyBranch now s = flapBird now s := by
  cases hs : s.gameStarted <;> cases ho : s.gameOver <;> simp_all [spaceKeyBranch]
  · exact (flapBird_notStarted now s hs ho).symm
  · exact (flapBird_gameOver now s ho).symm

/-- The amended C10 at a game-over state reached after a start: both inputs
restart. -/
theorem spaceKeyBranch_eq_flapBird_witness :
    spaceKeyBranch 5 (gameOverWith 0 []) = flapBird 5 (gameOverWith 0 []) :=
  spaceKeyBranch_eq_flapBird 5 (gameOverWith 0 []) (Or.inl rfl)

/-! ## Spawning -/

/-- C8: for every gap centre drawn in [100, 500] and every height of the pipe
texture, `spawnPipes` appends a top segment whose lower edge is at `gapY - 60`
and a bottom segment whose upper edge is at `gapY + 60`, so the opening is 120
high and centred on `gapY`; both are at x = 960 with horizontal velocity -200
and without gravity; the top one has `scored` clear, the bottom one set. -/
theorem spawnPipes_gap_geometry (e : Engine) (gapY : Between 100 500) (s : GameState) :
    ∃ top bottom : Pipe,
      (spawnPipes e gapY s).pipes = s.pipes ++ [top, bottom] ∧
      top.height = e.pipeHeight ∧ bottom.height = e.pipeHeight ∧
      top.y + top.height / 2 = gapY.val - pipeGap / 2 ∧
      top.y + top.height / 2 = gapY.val - 60 ∧
      bottom.y - bottom.height / 2 = gapY.val + pipeGap / 2 ∧
      bottom.y - bottom.height / 2 = gapY.val + 60 ∧
      (bottom.y - bottom.height / 2) - (top.y + top.height / 2) = 120 ∧
      ((bottom.y - bottom.height / 2) + (top.y + top.height / 2)) / 2 = gapY.val ∧
      top.x = 960 ∧ bottom.x = 960 ∧
      top.velocityX = -200 ∧ bottom.velocityX = -200 ∧
      top.allowGravity = false ∧ bottom.allowGravity = false ∧
      top.scored = false ∧ bottom.scored = true ∧
      top.textureKey = "pipe" ∧ bottom.textureKey = "pipe" ∧
      (100 : ℚ) ≤ gapY.val ∧ (gapY.val : ℚ) ≤ 500 := by
  refine ⟨_, _, rfl, rfl, rfl, ?_, ?_, ?_, ?_, ?_, ?_, rfl, rfl, rfl, rfl, rfl, rfl, rfl, rfl,
    rfl, rfl, ?_, ?_⟩
  · simp
  · simp only [pipeGap]; ring
  · simp
  · simp only [pipeGap]; ring
  · simp only [pipeGap]; ring
  · simp only [pipeGap]; ring
  · exact_mod_cast gapY.ge
  · exact_mod_cast gapY.le

/-- C7: in a frame without a space press, `update(t)` returns, and it spawns
exactly when `gameStarted` is set, `gameOver` is clear and
`t > lastPipeTime + 1500`.  When it
spawns, `lastPipeTime` becomes `t` and the collection ends with the two new
segments, in front of which stands what the loop kept of the old collection;
otherwise `lastPipeTime` is unchanged and every segment of the collection comes
from the old one. -/
theorem update_spawns_iff (e : Engine) (f : Frame) (s : GameState)
    (hk : f.spaceJustDown = false) :
    update e f s = .ok (vars (update e f s)) ∧
    (spawns (Event.frame f) s = true ↔
      (s.gameStarted = true ∧ s.gameOver = false ∧ f.time > s.lastPipeTime + 1500)) ∧
    ((s.gameStarted = true ∧ s.gameOver = false ∧ f.time > s.lastPipeTime + 1500) →
      (vars (update e f s)).lastPipeTime = f.time ∧
      ∃ old top bottom top1,
        pipePair e f.gapY.val = [top, bottom] ∧
        (top1 = top ∨ (top1 = { top with scored := true } ∧ 960 < s.bird.x)) ∧
        (vars (update e f s)).pipes = old ++ [top1, bottom] ∧
        old.length ≤ s.pipes.length ∧
        ∀ q ∈ old, ∃ p ∈ s.pipes, q = p ∨ q = { p with scored := true }) ∧
    (¬(s.gameStarted = true ∧ s.gameOver = false ∧ f.time > s.lastPipeTime + 1500) →
      (vars (update e f s)).lastPipeTime = s.lastPipeTime ∧
      (vars (update e f s)).pipes.length ≤ s.pipes.length ∧
      ∀ q ∈ (vars (update e f s)).pipes,
        ∃ p ∈ s.pipes, q = p ∨ q = { p with scored := true }) := by
  have hsp := spawns_no_key f s hk
  refine ⟨update_no_key_returns e f s hk, by rw [hsp]; exact spawnDue_iff f.time s, ?_, ?_⟩
  · intro h
    have hd := (spawnDue_iff f.time s).2 h
    refine ⟨?_, update_no_key_spawn e f s hk hd⟩
    rw [(update_no_key e f s hk).1, hd, if_pos rfl]
  · intro h
    have hd := spawnDue_eq_false f.time s h
    refine ⟨?_, update_no_key_idle e f s hk hd⟩
    rw [(update_no_key e f s hk).1, hd, if_neg (by decide)]

/-- The spawn theorem at the scene started at clock 0, for a frame at time
1501: the spawn test holds and the reference becomes 1501. -/
theorem update_spawns_iff_witness :
    (quietFrame 1501).spaceJustDown = false ∧
    spawns (Event.frame (quietFrame 1501)) playingAtZero = true ∧
    (vars (update (engine400 true) (quietFrame 1501) playingAtZero)).lastPipeTime = 1501 :=
  have h := update_spawns_iff (engine400 true) (quietFrame 1501) playingAtZero rfl
  have hc : playingAtZero.gameStarted = true ∧ playingAtZero.gameOver = false ∧
      (quietFrame 1501).time > playingAtZero.lastPipeTime + 1500 :=
    ⟨rfl, rfl, by norm_num [quietFrame, playingAtZero, create, createTextElements, vars]⟩
  ⟨rfl, h.2.1.2 hc, (h.2.2.1 hc).1⟩

/-- C9, as stated, fails: in the scene started at clock 0 (Playing, reference
0) the frame at t = 0 spawns nothing, and neither does the following frame at
t = 1500; the collection stays empty and the reference stays 0. -/
theorem no_spawn_at_0_nor_at_1500 :
    playingAtZero.gameStarted = true ∧ playingAtZero.gameOver = false ∧
    playingAtZero.lastPipeTime = 0 ∧ playingAtZero.pipes = [] ∧
    spawns (Event.frame (quietFrame 0)) playingAtZero = false ∧
    (vars (update (engine400 true) (quietFrame 0) playingAtZero)).pipes = [] ∧
    (vars (update (engine400 true) (quietFrame 0) playingAtZero)).lastPipeTime = 0 ∧
    spawns (Event.frame (quietFrame 1500))
      (vars (update (engine400 true) (quietFrame 0) playingAtZero)) = false ∧
    (vars (update (engine400 true) (quietFrame 1500)
      (vars (update (engine400 true) (quietFrame 0) playingAtZero)))).pipes = [] := by
  have h0 : spawnDue (quietFrame 0).time playingAtZero = false :=
    spawnDue_eq_false _ _ (by
      rintro ⟨_, _, h⟩
      norm_num [quietFrame, playingAtZero, create, createTextElements, vars] at h)
  obtain ⟨l1, g1, o1, p1⟩ :=
    update_no_key_idle_fields (engine400 true) (quietFrame 0) playingAtZero rfl h0
  have h1 : spawnDue (quietFrame 1500).time
      (vars (update (engine400 true) (quietFrame 0) playingAtZero)) = false :=
    spawnDue_eq_false _ _ (by
      rintro ⟨_, _, h⟩
      rw [l1] at h
      norm_num [quietFrame, playingAtZero, create, createTextElements, vars] at h)
  refine ⟨rfl, rfl, rfl, rfl, ?_, p1 rfl, l1, ?_, ?_⟩
  · rw [spawns_no_key _ _ rfl]; exact h0
  · rw [spawns_no_key _ _ rfl]; exact h1
  · exact (update_no_key_idle_fields (engine400 true) (quietFrame 1500) _ rfl h1).2.2.2 (p1 rfl)

/-! ## Scoring -/

/-- C4, as stated, fails in three ways.  A segment left of the bird with
`scored` clear but y = 390 (the top segment of the draw 500 with a 100-high
texture) is not scored: the test also asks for `y < 300`.  A frame that restarts
(space pressed during game over) clears the collection and leaves the score at
0.  And when the child array is live, the segment that follows a culled one is
not visited in that frame, while with a copied array it is scored. -/
theorem passed_segment_not_always_scored :
    ((pipePair (engine100 false) 500).head?.map (fun top => { top with x := 70 }) =
        some lowTopAt70 ∧
      lowTopAt70.scored = false ∧ lowTopAt70.x < (playingWith [lowTopAt70]).bird.x ∧
      (vars (update (engine100 false) (quietFrame 0) (playingWith [lowTopAt70]))).score = 0 ∧
      (vars (update (engine100 false) (quietFrame 0) (playingWith [lowTopAt70]))).pipes =
        [lowTopAt70]) ∧
    ((gameOverWith 2 [segmentAt 70 100 false]).pipes =
        [{ segmentAt 70 100 false with velocityX := 0 }] ∧
      (gameOverWith 2 [segmentAt 70 100 false]).score = 2 ∧
      (vars (update (engine400 false) (keyFrame 0)
        (gameOverWith 2 [segmentAt 70 100 false]))).score = 0 ∧
      (vars (update (engine400 false) (keyFrame 0)
        (gameOverWith 2 [segmentAt 70 100 false]))).pipes =
        []) ∧
    ((vars (update (engine400 true) (quietFrame 0)
        (playingWith [segmentAt (-60) 500 true, segmentAt 70 100 false]))).score = 0 ∧
      (vars (update (engine400 true) (quietFrame 0)
        (playingWith [segmentAt (-60) 500 true, segmentAt 70 100 false]))).pipes =
        [segmentAt 70 100 false] ∧
      (vars (update (engine400 false) (quietFrame 0)
        (playingWith [segmentAt (-60) 500 true, segmentAt 70 100 false]))).score = 1) := by
  refine ⟨⟨?_, rfl, ?_, ?_, ?_⟩, ⟨rfl, rfl, ?_, ?_⟩, ?_, ?_, ?_⟩
  · norm_num [pipePair, engine100, lowTopAt70, pipeGap, pipeSpeed]
  · norm_num [lowTopAt70, playingWith, playingAtZero, create, createTextElements, vars]
  all_goals
    norm_num [update, updateScroll, updateKey, updateAngle, updateSpawn, spawnDue, updatePipes,
      forEachPipe, passed, playingWith, playingAtZero, gameOverWith, create,
      createTextElements, vars, quietFrame,
      keyFrame, lowTopAt70, segmentAt, engine100, engine400, pipeSpawnTime, spaceKeyBranch,
      restartGame, addScore]

/-- C4, amended: in every state and every frame that does not restart (no space
press during game over), a segment of the collection with `scored` clear,
texture key "pipe", `y < 300` and `x` less than the bird's, which the loop
visits (when the child array is live, the segment in front of it, if any, is not
culled in that frame), counts for exactly one point: `update` ends with one
point more than, and with the same collection as, the same frame run with that
segment already scored, and the segment, unless culled itself, is in the
collection with its flag set.  With that segment alone in the collection and the
bird not beyond x = 960, the score after the frame is the old score plus 1, so 1
for the bird at x = 80 with score 0 and the segment at x = 70. -/
theorem update_scores_passed_segment (e : Engine) (f : Frame) (s : GameState)
    (pre post : List Pipe) (p : Pipe)
    (hno : ¬(f.spaceJustDown = true ∧ s.gameOver = true))
    (hps : s.pipes = pre ++ p :: post)
    (hsc : p.scored = false) (hx : p.x < s.bird.x) (hkey : p.textureKey = "pipe")
    (hy : p.y < 300)
    (hvis : e.liveChildren = true → ∀ pre0 q, pre = pre0 ++ [q] → ¬q.x < -50) :
    update e f s = .ok (vars (update e f s)) ∧
    (vars (update e f s)).score =
      (vars (update e f { s with pipes := pre ++ { p with scored := true } :: post })).score + 1 ∧
    (vars (update e f s)).pipes =
      (vars (update e f { s with pipes := pre ++ { p with scored := true } :: post })).pipes ∧
    (¬p.x < -50 → { p with scored := true } ∈ (vars (update e f s)).pipes) ∧
    (pre = [] → post = [] → s.bird.x ≤ 960 →
      (vars (update e f s)).score = s.score + 1) := by
  have hpass : passed s.bird.x p = true := by simp [passed, hsc, hx, hkey, hy]
  obtain ⟨hbx, hbs, _⟩ := front_keeps e f s hno
  have hs : s = { s with pipes := pre ++ p :: post } := by rw [← hps]
  obtain ⟨a1, a2⟩ := update_via_base e f s hno (pre ++ p :: post)
  obtain ⟨b1, b2⟩ := update_via_base e f s hno (pre ++ { p with scored := true } :: post)
  rw [← hs] at a1 a2
  rw [List.append_assoc, List.cons_append] at a1 a2 b1 b2
  obtain ⟨c1, c2, c3⟩ := forEachPipe_scored_segment e.liveChildren s.bird.x p
    (post ++ (if spawns (Event.frame f) s then pipePair e f.gapY.val else [])) hpass pre false
    (updateSpawn e f (updateAngle (vars (updateKey f (updateScroll s))))) hbx
    (fun _ => rfl) hvis
  refine ⟨(update_returns e f s hno).1, by rw [a2, b2, c2], by rw [a1, b1, c1],
    fun h => by rw [a1]; exact c3 h, ?_⟩
  intro hpre hpost hb
  rw [a2, c2, hpre, hpost, List.nil_append, List.nil_append, forEachPipe_no_pass, hbs]
  intro q hq
  rw [hbx]
  rcases List.mem_cons.1 hq with h | h
  · rw [h]; exact passed_of_scored _ _ rfl
  · obtain ⟨top, bottom, hpair, htx, _, _, hbsc, _⟩ := pipePair_eq e f.gapY.val
    split_ifs at h
    · rw [hpair] at h
      rcases List.mem_cons.1 h with h | h
      · rw [h]
        simp only [passed, htx, Bool.and_eq_false_imp, Bool.and_eq_true, decide_eq_true_eq]
        intro h3
        exact absurd h3.1.2 (not_lt.2 hb)
      · rw [List.mem_singleton.1 h]; exact passed_of_scored _ _ hbsc
    · cases h

/-- The amended C4 in the scenario of the specification: the bird at x = 80,
score 0, one top segment at x = 70 with `scored` clear; the score is 1 after the
frame. -/
theorem update_scores_passed_segment_witness :
    (playingWith [segmentAt 70 100 false]).bird.x = 80 ∧
    (playingWith [segmentAt 70 100 false]).score = 0 ∧
    (vars (update (engine400 true) (quietFrame 0)
      (playingWith [segmentAt 70 100 false]))).score = 1 :=
  ⟨rfl, rfl,
    (update_scores_passed_segment (engine400 true) (quietFrame 0)
      (playingWith [segmentAt 70 100 false]) [] [] (segmentAt 70 100 false)
      (by simp [quietFrame]) rfl rfl
      (by norm_num [segmentAt, playingWith, playingAtZero, create, createTextElements, vars]) rfl
      (by norm_num [segmentAt])
      (fun _ pre0 q h => absurd h (by simp))).2.2.2.2 rfl rfl
      (by norm_num [playingWith, playingAtZero, create, createTextElements, vars])⟩

/-- C5: in every run of frames, pointer presses, collisions, physics steps and
font callbacks from a state with score 0 and no pipe (the created scene, or the
scene after a restart), the score plus the number of segments whose `scored`
flag is clear never exceeds the number of pairs spawned since the last restart,
so the score never exceeds it.  The run goes on with the variables a call leaves
when it throws; the restarts counted are those carried out (score 0 and an
empty collection after them), which are all the calls of `restartGame` once the
prompts exist.  Each pair brings exactly one clear flag (the top segment; the
bottom one is created scored), a scored segment never passes the scoring test,
the loop only ever sets a flag, and outside a restart every event leaves the
score at least as high and pays each new point with a clear flag. -/
theorem score_le_pairs_spawned (e : Engine) (s : GameState) (evs : List Event)
    (hsc : s.score = 0) (hp : s.pipes = []) :
    (runGame e evs (s, 0)).1 = evs.foldl (fun t ev => step e ev t) s ∧
    (runGame e evs (s, 0)).1.score + unscored (runGame e evs (s, 0)).1.pipes ≤
      (runGame e evs (s, 0)).2 ∧
    (runGame e evs (s, 0)).1.score ≤ (runGame e evs (s, 0)).2 ∧
    (∀ g : ℤ, unscored (pipePair e g) = 1 ∧
      ∃ top bottom, pipePair e g = [top, bottom] ∧ top.scored = false ∧
        bottom.scored = true) ∧
    (∀ (bx : ℚ) (pipe : Pipe), pipe.scored = true → passed bx pipe = false) ∧
    (∀ (k : Bool) (xs : List Pipe) (t : GameState),
      ∀ q ∈ (forEachPipe e.liveChildren k xs t).1,
        ∃ p ∈ xs, q = p ∨ q = { p with scored := true }) ∧
    (∀ (ev : Event) (t : GameState), restarts ev t = false →
      t.score ≤ (step e ev t).score ∧
      (step e ev t).score + unscored (step e ev t).pipes ≤
        t.score + unscored t.pipes + (if spawns ev t then 1 else 0)) ∧
    (∀ (ev : Event) (t : GameState) (a b : Bool), t.gameOverText = some a →
      t.restartText = some b → restartsFully ev t = restarts ev t) ∧
    (∀ (ev : Event) (t : GameState), restartsFully ev t = true →
      (step e ev t).score = 0 ∧ (step e ev t).pipes = []) := by
  have h := runGame_account e evs (s, 0) (by simp [hsc, hp, unscored])
  refine ⟨runGame_fst e evs (s, 0), h, le_trans (Nat.le_add_right _ _) h, ?_,
    fun bx pipe hs => passed_of_scored bx pipe hs,
    fun k xs t => forEachPipe_mem e.liveChildren xs k t, ?_, ?_,
    fun ev t h => step_restartsFully e ev t h⟩
  · intro g
    exact ⟨unscored_pipePair e g, _, _, rfl, rfl, rfl⟩
  · intro ev t hr
    have h2 := step_account e ev t
    rw [restartsFully_of_not_restarts ev t hr, if_neg (by decide)] at h2
    exact ⟨step_score_le e ev t hr, h2⟩
  · intro ev t a b hg hr
    simp [restartsFully, hg, hr]

/-- The score bound on a run from the created scene: a start, a frame that
spawns, a physics step that carries the pair past the bird, a frame that scores.
The score is then 1 and one pair has been spawned. -/
theorem score_le_pairs_spawned_witness :
    (create "" false).score = 0 ∧ (create "" false).pipes = [] ∧
    (runGame (engine400 true)
      [Event.pointerDown 0, Event.frame (quietFrame 1501),
        Event.physics ⟨80, 250, 0, 100, fun _ => 70, fun _ => 40, fun _ => -200⟩,
        Event.frame (quietFrame 1600)]
      (create "" false, 0)).1.score ≤
    (runGame (engine400 true)
      [Event.pointerDown 0, Event.frame (quietFrame 1501),
        Event.physics ⟨80, 250, 0, 100, fun _ => 70, fun _ => 40, fun _ => -200⟩,
        Event.frame (quietFrame 1600)]
      (create "" false, 0)).2 ∧
    ((runGame (engine400 true)
      [Event.pointerDown 0, Event.frame (quietFrame 1501),
        Event.physics ⟨80, 250, 0, 100, fun _ => 70, fun _ => 40, fun _ => -200⟩,
        Event.frame (quietFrame 1600)]
      (create "" false, 0)).1.score = 1 ∧
    (runGame (engine400 true)
      [Event.pointerDown 0, Event.frame (quietFrame 1501),
        Event.physics ⟨80, 250, 0, 100, fun _ => 70, fun _ => 40, fun _ => -200⟩,
        Event.frame (quietFrame 1600)]
      (create "" false, 0)).2 = 1) :=
  ⟨rfl, rfl, (score_le_pairs_spawned (engine400 true) (create "" false) _ rfl rfl).2.2.1, by
    have h0 : flapBird 0 (create "" false) = _ := flapBird_not_over 0 (create "" false) rfl
    simp only [runGame, step, handle, h0]
    norm_num [vars, restartsFully, restarts, spawns, update, updateScroll, updateKey,
      updateAngle, updateSpawn, spawnDue, spawnPipes, updatePipes, forEachPipe, passed, create,
      createTextElements, quietFrame, engine400, pipeSpawnTime, addScore, pipePair, pipeGap,
      pipeSpeed, physicsStep, movePipes, Math.clamp]⟩

/-- C6 does not hold of the code: the loop of `update` that scores is not
guarded by the game state.  In a game-over state with score 3 and display
"Score: 3", a frame without key press in which a stopped top segment with
`scored` clear is left of the bird (x = 70 against 80, y = 100) raises the score
to 4 and the display to "Score: 4", whether the child array is live or copied.
Such a state arises in play: with a pair at x = 82 and score 3, a Playing frame
does not score; the physics step carries the pair to x = 78, a collision sets
`gameOver` at score 3, and the next frame scores. -/
theorem update_scores_during_game_over :
    ((gameOverWith 3 [segmentAt 70 100 false]).gameOver = true ∧
      (gameOverWith 3 [segmentAt 70 100 false]).score = 3 ∧
      (gameOverWith 3 [segmentAt 70 100 false]).scoreText = "Score: 3" ∧
      (gameOverWith 3 [segmentAt 70 100 false]).bird.x = 80 ∧
      (gameOverWith 3 [segmentAt 70 100 false]).pipes =
        [{ segmentAt 70 100 false with velocityX := 0 }] ∧
      (quietFrame 0).spaceJustDown = false ∧
      update (engine400 true) (quietFrame 0) (gameOverWith 3 [segmentAt 70 100 false]) =
        .ok (vars (update (engine400 true) (quietFrame 0)
          (gameOverWith 3 [segmentAt 70 100 false]))) ∧
      (vars (update (engine400 true) (quietFrame 0)
        (gameOverWith 3 [segmentAt 70 100 false]))).score = 4 ∧
      (vars (update (engine400 true) (quietFrame 0)
        (gameOverWith 3 [segmentAt 70 100 false]))).scoreText = "Score: 4" ∧
      (vars (update (engine400 false) (quietFrame 0)
        (gameOverWith 3 [segmentAt 70 100 false]))).score = 4 ∧
      (vars (update (engine400 false) (quietFrame 0)
        (gameOverWith 3 [segmentAt 70 100 false]))).scoreText = "Score: 4" ∧
      (vars (update (engine400 true) (quietFrame 0)
        (gameOverWith 3 [segmentAt 70 100 false]))).gameOver = true) ∧
    (pairAhead.gameStarted = true ∧ pairAhead.gameOver = false ∧ pairAhead.score = 3 ∧
      (vars (update (engine400 true) (quietFrame 1016) pairAhead)).score = 3 ∧
      (vars (gameOverHandler (physicsStep pastTheBird
        (vars (update (engine400 true) (quietFrame 1016) pairAhead))))).gameOver = true ∧
      (vars (gameOverHandler (physicsStep pastTheBird
        (vars (update (engine400 true) (quietFrame 1016) pairAhead))))).score = 3 ∧
      (vars (update (engine400 true) (quietFrame 1033)
        (vars (gameOverHandler (physicsStep pastTheBird
          (vars (update (engine400 true) (quietFrame 1016) pairAhead))))))).score = 4 ∧
      (vars (update (engine400 true) (quietFrame 1033)
        (vars (gameOverHandler (physicsStep pastTheBird
          (vars (update (engine400 true) (quietFrame 1016) pairAhead))))))).scoreText =
        "Score: 4") := by
  refine ⟨⟨rfl, rfl, by decide, rfl, rfl, rfl, update_no_key_returns _ _ _ rfl,
    ?_, ?_, ?_, ?_, ?_⟩, rfl, rfl, rfl, ?_, ?_, ?_, ?_, ?_⟩
  all_goals
    norm_num [update, updateScroll, updateKey, updateAngle, updateSpawn, spawnDue, updatePipes,
      forEachPipe, passed, gameOverWith, create, createTextElements, vars, quietFrame,
      segmentAt, engine400,
      pipeSpawnTime, addScore, pairAhead, playingAtZero, pipePair, pipeGap, pipeSpeed,
      physicsStep, movePipes, pastTheBird, gameOverHandler, Math.clamp]
  all_goals decide

/-- C9, amended: in a Playing state whose spawn-timer reference is 0, a frame
without key press returns; at a time up to 1500 (so at 0 and at 1500) it spawns
nothing and
leaves the reference at 0; a frame at a time after 1500 spawns a pair whose gap
centre lies in [100, 500], the top segment ending 60 above it and the bottom one
starting 60 below it, sets the reference to that time `t`, and the next pair is
spawned by a later frame exactly when its time is after `t + 1500`. -/
theorem first_spawn_after_1500 (e : Engine) (f : Frame) (s : GameState)
    (hk : f.spaceJustDown = false) (hs : s.gameStarted = true) (ho : s.gameOver = false)
    (hl : s.lastPipeTime = 0) :
    update e f s = .ok (vars (update e f s)) ∧
    (f.time ≤ 1500 →
      spawns (Event.frame f) s = false ∧ (vars (update e f s)).lastPipeTime = 0 ∧
      (vars (update e f s)).pipes.length ≤ s.pipes.length ∧
      ∀ q ∈ (vars (update e f s)).pipes,
        ∃ p ∈ s.pipes, q = p ∨ q = { p with scored := true }) ∧
    (f.time > 1500 →
      spawns (Event.frame f) s = true ∧ (vars (update e f s)).lastPipeTime = f.time ∧
      (∃ old top bottom top1,
        pipePair e f.gapY.val = [top, bottom] ∧
        top.y + top.height / 2 = f.gapY.val - 60 ∧
        bottom.y - bottom.height / 2 = f.gapY.val + 60 ∧
        100 ≤ f.gapY.val ∧ f.gapY.val ≤ 500 ∧
        (top1 = top ∨ (top1 = { top with scored := true } ∧ 960 < s.bird.x)) ∧
        (vars (update e f s)).pipes = old ++ [top1, bottom] ∧
        old.length ≤ s.pipes.length ∧
        ∀ q ∈ old, ∃ p ∈ s.pipes, q = p ∨ q = { p with scored := true }) ∧
      ∀ f2 : Frame, f2.spaceJustDown = false →
        (spawns (Event.frame f2) (vars (update e f s)) = true ↔ f2.time > f.time + 1500)) := by
  refine ⟨update_no_key_returns e f s hk, ?_, ?_⟩
  · intro ht
    have hd : spawnDue f.time s = false :=
      spawnDue_eq_false _ _ (by rintro ⟨_, _, h⟩; rw [hl] at h; linarith)
    obtain ⟨h1, _, _, _⟩ := update_no_key_idle_fields e f s hk hd
    exact ⟨by rw [spawns_no_key f s hk]; exact hd, by rw [h1, hl],
      update_no_key_idle e f s hk hd⟩
  · intro ht
    have hd : spawnDue f.time s = true :=
      (spawnDue_iff _ _).2 ⟨hs, ho, by rw [hl]; linarith⟩
    obtain ⟨h1, h2, h3, _, _⟩ := update_no_key e f s hk
    rw [hd, if_pos rfl] at h1
    obtain ⟨old, top, bottom, top1, hpair, htop, hpipes, hlen, hold⟩ :=
      update_no_key_spawn e f s hk hd
    obtain ⟨top', bottom', hpair', _, _, _, _, _, _, hlow, hup⟩ := pipePair_eq e f.gapY.val
    rw [hpair] at hpair'
    obtain ⟨rfl, rfl⟩ : top = top' ∧ bottom = bottom' := by
      simpa using hpair'
    refine ⟨by rw [spawns_no_key f s hk]; exact hd, h1,
      ⟨old, top, bottom, top1, hpair, hlow, hup, f.gapY.ge, f.gapY.le, htop, hpipes, hlen,
        hold⟩, ?_⟩
    intro f2 hk2
    rw [spawns_no_key f2 _ hk2, spawnDue_iff, h1, h2, h3]
    exact ⟨fun h => h.2.2, fun h => ⟨hs, ho, h⟩⟩

/-- The amended C9 at the scene started at clock 0: the frame at 1501 spawns
and a following frame at 3001 does not. -/
theorem first_spawn_after_1500_witness :
    playingAtZero.lastPipeTime = 0 ∧
    spawns (Event.frame (quietFrame 1501)) playingAtZero = true ∧
    (vars (update (engine400 true) (quietFrame 1501) playingAtZero)).lastPipeTime = 1501 ∧
    ¬spawns (Event.frame (quietFrame 3001))
      (vars (update (engine400 true) (quietFrame 1501) playingAtZero)) = true :=
  have h := (first_spawn_after_1500 (engine400 true) (quietFrame 1501) playingAtZero
    rfl rfl rfl rfl).2.2 (by norm_num [quietFrame])
  ⟨rfl, h.1, h.2.1, fun h3 => absurd ((h.2.2.2 (quietFrame 3001) rfl).1 h3)
    (by norm_num [quietFrame])⟩

end FlappyBird
